import Mathlib

/-
Shallow embedding of the geomatch repository (src/state.rs, src/data_frame.rs).

Conventions of the embedding:
  * Rust f64 values are modelled by a linearly ordered field F.  The NaN
    sentinel is modelled by the type Option F, with none standing for NaN;
    float equality (x == y), which is false whenever either side is NaN,
    becomes equality of the carried values under some/some.
  * Rust Vec indexing panics out of range; the embedding uses List.getD with
    a default.  All call sites exercised by the theorems stay in range.
  * The external collaborators (the fuzzywuzzy token_sort_ratio function,
    f64 parsing, and the network geocoder) are passed as explicit function
    parameters (fuzz, parseF, net), mirroring their role as external inputs.
  * Real-valued transcendental arithmetic (the haversine distance) is
    modelled over the real numbers; the match engine is kept parametric in
    the two distance functions (lin, hav) exactly as they are separate
    top-level functions in src/state.rs.
-/

set_option maxHeartbeats 1000000

namespace Geomatch

/-- Join mode of the merge, from enum MatchMode in src/state.rs. -/
inductive MatchMode
  | LEFT
  | INNER
  | OUTER
deriving DecidableEq, BEq

/-- Columnar table, from struct DataFrame in src/data_frame.rs.  The field
named pfx embeds the per-table column name prefix of the source. -/
structure DataFrame (F : Type) where
  headers : List String := []
  shape : Nat × Nat := (0, 0)
  pfx : String := ""
  data : List (List String) := []
  id : Option Nat := none
  addr1 : Option Nat := none
  addr2 : Option Nat := none
  city : Option Nat := none
  state : Option Nat := none
  zipcode : Option Nat := none
  lat : Option (List (Option F)) := none
  lng : Option (List (Option F)) := none
  output_cols : List Nat := []
  compare_cols : List Nat := []

/-- Global configuration, from struct State in src/state.rs (the api_key and
file_count fields play no role in matching and are omitted). -/
structure State (F : Type) where
  data_frames : List (DataFrame F)
  match_mode : MatchMode
  radius : F
  exclusive : Bool

variable {F : Type}

/-- Value of df.lat().unwrap()[i]: none models an absent column or NaN. -/
def latAt (df : DataFrame F) (i : Nat) : Option F :=
  (df.lat.getD []).getD i none

/-- Value of df.lng().unwrap()[i]: none models an absent column or NaN. -/
def lngAt (df : DataFrame F) (i : Nat) : Option F :=
  (df.lng.getD []).getD i none

/-- DataFrame::output_headers from src/data_frame.rs. -/
def output_headers (df : DataFrame F) : List String :=
  df.output_cols.map (fun col =>
    if df.pfx = "" then df.headers.getD col ""
    else df.pfx ++ "_" ++ df.headers.getD col "")

/-- DataFrame::output_row from src/data_frame.rs. -/
def output_row (df : DataFrame F) (row : Nat) : List String :=
  df.output_cols.map (fun col => (df.data.getD col []).getD row "")

/-- DataFrame::compare_row from src/data_frame.rs. -/
def compare_row (df : DataFrame F) (row : Nat) : List String :=
  df.compare_cols.map (fun col => (df.data.getD col []).getD row "")

/-- DataFrame::with_capacity from src/data_frame.rs (capacities have no
semantic content; the height argument is kept for shape only). -/
def with_capacity (width _height : Nat) : DataFrame F :=
  { data := List.replicate width [],
    lat := some [],
    lng := some [] }

/-- Inner minimum of src/state.rs lines 470-476: the smallest column
dissimilarity 100 - token_sort_ratio of tc against all source compare
values.  The external token_sort_ratio is the parameter fuzz. -/
def min_col_dist (fuzz : String → String → Nat) (src_compare : List String)
    (tc : String) : Option Nat :=
  src_compare.foldl (fun m sc =>
    let cd := 100 - fuzz sc tc
    match m with
    | none => some cd
    | some mv => if mv > cd then some cd else m) none

/-- Accumulated squared dissimilarity of one candidate, src/state.rs lines
466-480. -/
def tieScore (fuzz : String → String → Nat)
    (src_compare test_compare : List String) : Nat :=
  test_compare.foldl (fun d tc =>
    match min_col_dist fuzz src_compare tc with
    | none => d
    | some v => d + v ^ 2) 0

/-- One step of the fuzzy tie-break fold, src/state.rs lines 463-485. -/
def tieStep (fuzz : String → String → Nat) (src_compare : List String)
    (df2 : DataFrame F) (mn : Option (Nat × Nat)) (ti : Nat) :
    Option (Nat × Nat) :=
  let dist := tieScore fuzz src_compare (compare_row df2 ti)
  match mn with
  | none => some (ti, dist)
  | some m => if m.2 > dist then some (ti, dist) else mn

/-- The fuzzy tie-break fold over the exact-match candidates, src/state.rs
lines 463-485: keeps the first candidate of strictly smallest score. -/
def tieFold (fuzz : String → String → Nat) (src_compare : List String)
    (df2 : DataFrame F) (l : List Nat) : Option (Nat × Nat) :=
  l.foldl (tieStep fuzz src_compare df2) none

variable [LinearOrderedField F] [DecidableEq F]

/-- One step of the candidate scan of src/state.rs lines 426-449.  The
accumulator carries the exact-match list and the running proxy minimum
(index, lat, lng, proxy distance). -/
def scanStep (exclusive : Bool) (lin : F → F → F → F → F) (la ln : F)
    (df2 : DataFrame F) (wmask : List Bool)
    (acc : List Nat × Option (Nat × F × F × F)) (ti : Nat) :
    List Nat × Option (Nat × F × F × F) :=
  if exclusive && wmask.getD ti false then acc
  else
    match latAt df2 ti, lngAt df2 ti with
    | some tla, some tln =>
      if la = tla ∧ ln = tln then (acc.1 ++ [ti], acc.2)
      else if acc.1 ≠ [] then acc
      else
        let dist := lin la ln tla tln
        match acc.2 with
        | none => (acc.1, some (ti, tla, tln, dist))
        | some m => if dist < m.2.2.2 then (acc.1, some (ti, tla, tln, dist)) else acc
    | _, _ => acc

/-- The whole candidate scan of src/state.rs lines 426-449. -/
def scanCandidates (exclusive : Bool) (lin : F → F → F → F → F) (la ln : F)
    (df2 : DataFrame F) (wmask : List Bool) :
    List Nat × Option (Nat × F × F × F) :=
  (List.range df2.shape.2).foldl (scanStep exclusive lin la ln df2 wmask) ([], none)

/-- State::find_single_match from src/state.rs lines 415-501, parametric in
the two distance functions lin (the planar proxy, function linear) and hav
(function haversine) and in the external token_sort_ratio (fuzz). -/
def find_single_match (lin hav : F → F → F → F → F)
    (fuzz : String → String → Nat) (exclusive : Bool) (radius : F)
    (record_index : Nat) (df1 df2 : DataFrame F) (written_mask : List Bool) :
    Option (Nat × F) :=
  match latAt df1 record_index, lngAt df1 record_index with
  | some la, some ln =>
    let scan := scanCandidates exclusive lin la ln df2 written_mask
    match scan.1 with
    | [e] => some (e, 0)
    | [] =>
      match scan.2 with
      | some (min_index, min_lat, min_lng, _) =>
        let dist := hav la ln min_lat min_lng
        if dist > radius then none else some (min_index, dist)
      | none => none
    | e1 :: e2 :: rest =>
      let src_compare := compare_row df1 record_index
      match tieFold fuzz src_compare df2 (e1 :: e2 :: rest) with
      | some m => some (m.1, 0)
      | none => none
  | _, _ => none

/-- Eligibility of a candidate row in the scan: not excluded by the written
mask under exclusivity, and both coordinates resolved (non-NaN). -/
def eligPred (exclusive : Bool) (wmask : List Bool) (df2 : DataFrame F)
    (ti : Nat) : Bool :=
  (!(exclusive && wmask.getD ti false)) && (latAt df2 ti).isSome
    && (lngAt df2 ti).isSome

/-- Exact-match test of a candidate row: eligible and coordinates equal
bit-for-bit to the source coordinates. -/
def exactPred (exclusive : Bool) (wmask : List Bool) (df2 : DataFrame F)
    (la ln : F) (ti : Nat) : Bool :=
  if exclusive && wmask.getD ti false then false
  else
    match latAt df2 ti, lngAt df2 ti with
    | some tla, some tln => decide (la = tla ∧ ln = tln)
    | _, _ => false

/-- Specification of the running proxy minimum of the candidate scan:
either no eligible candidate has been processed, or the stored tuple is an
eligible processed candidate of minimal proxy distance among the processed
eligible candidates. -/
def MinSpec (exclusive : Bool) (lin : F → F → F → F → F) (la ln : F)
    (df2 : DataFrame F) (wmask : List Bool) (processed : List Nat)
    (mn : Option (Nat × F × F × F)) : Prop :=
  match mn with
  | none => ∀ ti ∈ processed, eligPred exclusive wmask df2 ti = false
  | some m => eligPred exclusive wmask df2 m.1 = true ∧ m.1 ∈ processed ∧
      latAt df2 m.1 = some m.2.1 ∧ lngAt df2 m.1 = some m.2.2.1 ∧
      m.2.2.2 = lin la ln m.2.1 m.2.2.1 ∧
      ∀ k ∈ processed, ∀ b c, eligPred exclusive wmask df2 k = true →
        latAt df2 k = some b → lngAt df2 k = some c →
        m.2.2.2 ≤ lin la ln b c

/-- NaN-propagating average of two coordinates, modelling
(a + b) * 0.5 of src/state.rs lines 343-344. -/
def cAvg (a b : Option F) : Option F :=
  match a, b with
  | some x, some y => some ((x + y) * (1 / 2))
  | _, _ => none

/-- Write value v into column c, row r of the column-major data. -/
def setCell (d : List (List String)) (c r : Nat) (v : String) :
    List (List String) :=
  d.set c ((d.getD c []).set r v)

/-- Row count of the output table, read as output.data()[0].len() in
src/state.rs lines 328 and 406. -/
def numRows (out : DataFrame F) : Nat := (out.data.getD 0 []).length

/-- Processing of one existing output row during a table's matching pass,
src/state.rs lines 328-357.  The state carries the output frame, the
written mask of the input table, the global match mask, and (as the ghost
trace used by the exclusivity theorems) the list of (output row, candidate
index) pairs returned so far. -/
def matchOne (lin hav : F → F → F → F → F) (fuzz : String → String → Nat)
    (fStr : F → String) (exclusive : Bool) (radius : F) (isLeft : Bool)
    (df : DataFrame F) (colIndex cols : Nat)
    (st : DataFrame F × List Bool × List Bool × List (Nat × Nat))
    (row : Nat) : DataFrame F × List Bool × List Bool × List (Nat × Nat) :=
  match find_single_match lin hav fuzz exclusive radius row st.1 df st.2.1 with
  | none => st
  | some (index, dist) =>
    let out := st.1
    let ocols := output_row df index
    let data1 := (List.range cols).foldl
      (fun d col => setCell d (colIndex + col) row (ocols.getD col "")) out.data
    let data2 := if isLeft then setCell data1 (data1.length - 1) row (fStr dist)
      else data1
    let newLat := cAvg (latAt out row) (latAt df index)
    let newLng := cAvg (lngAt out row) (lngAt df index)
    ({ out with
        data := data2,
        lat := some ((out.lat.getD []).set row newLat),
        lng := some ((out.lng.getD []).set row newLng) },
      st.2.1.set index true, st.2.2.1.set row true, st.2.2.2 ++ [(row, index)])

/-- A table's matching pass over all rows already present in the output,
src/state.rs lines 328-357.  The iteration bound is the output row count at
entry, as in the source. -/
def matchPass (lin hav : F → F → F → F → F) (fuzz : String → String → Nat)
    (fStr : F → String) (exclusive : Bool) (radius : F) (isLeft : Bool)
    (df : DataFrame F) (colIndex cols : Nat)
    (st : DataFrame F × List Bool × List Bool × List (Nat × Nat)) :
    DataFrame F × List Bool × List Bool × List (Nat × Nat) :=
  (List.range (numRows st.1)).foldl
    (matchOne lin hav fuzz fStr exclusive radius isLeft df colIndex cols) st

/-- Appending one input row as a brand-new output row, src/state.rs lines
364-381: blanks for earlier tables' slices, this table's output values,
verbatim coordinates, blanks for the remaining slices. -/
def appendRow (df : DataFrame F) (colIndex cols width : Nat)
    (out : DataFrame F) (row : Nat) : DataFrame F :=
  let data1 := (List.range colIndex).foldl
    (fun d col => d.set col ((d.getD col []) ++ [""])) out.data
  let ocols := output_row df row
  let data2 := (List.range cols).foldl
    (fun d col => d.set (col + colIndex) ((d.getD (col + colIndex) []) ++ [ocols.getD col ""])) data1
  let data3 := (List.range' (colIndex + cols) (width - (colIndex + cols))).foldl
    (fun d col => d.set col ((d.getD col []) ++ [""])) data2
  { out with
      data := data3,
      lat := some ((out.lat.getD []) ++ [latAt df row]),
      lng := some ((out.lng.getD []) ++ [lngAt df row]) }

/-- The append phase of one table, src/state.rs lines 361-384. -/
def appendPass (exclusive : Bool) (df : DataFrame F)
    (colIndex cols width : Nat) (wmask : List Bool) (out : DataFrame F) :
    DataFrame F :=
  (List.range df.shape.2).foldl
    (fun o row => if !exclusive || !(wmask.getD row false)
      then appendRow df colIndex cols width o row else o) out

/-- Processing of one input table inside find_matches, src/state.rs lines
316-390.  The accumulator carries output frame, match mask, running column
offset and the table index. -/
def tablePass (lin hav : F → F → F → F → F) (fuzz : String → String → Nat)
    (fStr : F → String) (mode : MatchMode) (exclusive : Bool) (radius : F)
    (width : Nat) (acc : DataFrame F × List Bool × Nat × Nat)
    (df : DataFrame F) : DataFrame F × List Bool × Nat × Nat :=
  let wmask : List Bool := List.replicate df.shape.2 false
  let cols := (output_headers df).length
  let res := matchPass lin hav fuzz fStr exclusive radius
    (mode == MatchMode.LEFT) df acc.2.2.1 cols (acc.1, wmask, acc.2.1, [])
  let out := if mode ≠ MatchMode.LEFT ∨ acc.2.2.2 = 0
    then appendPass exclusive df acc.2.2.1 cols width res.2.1 res.1
    else res.1
  (out, res.2.2.1, acc.2.2.1 + cols, acc.2.2.2 + 1)

/-- The total output width of src/state.rs lines 256-269: the sum of the
selected output column counts plus one distance column under LEFT. -/
def totalWidth (s : State F) : Nat :=
  s.data_frames.foldl (fun w df => w + (output_headers df).length) 0 +
    (if s.match_mode = MatchMode.LEFT then 1 else 0)

/-- The total height (sum of table row counts) of src/state.rs lines 256-263. -/
def totalHeight (s : State F) : Nat :=
  s.data_frames.foldl (fun h df => h + df.shape.2) 0

/-- The output frame as first set up by find_matches, src/state.rs lines
276-304: the with_capacity frame with the concatenated output headers
(plus distance under LEFT) and every column selected for output. -/
def mergeInit (s : State F) : DataFrame F :=
  { with_capacity (totalWidth s) (totalHeight s) with
      headers := s.data_frames.foldl (fun hs df => hs ++ output_headers df) []
        ++ (if s.match_mode = MatchMode.LEFT then ["distance"] else []),
      output_cols := List.range (totalWidth s) }

/-- State::find_matches from src/state.rs lines 255-413, up to the final
file write: the error return of line 273 and the construction of the
output frame and the match mask.  The written file is recovered from the
result by writtenRows below. -/
def find_matches (lin hav : F → F → F → F → F)
    (fuzz : String → String → Nat) (fStr : F → String) (s : State F) :
    Except String (DataFrame F × List Bool) :=
  let width := totalWidth s
  if width = 0 then Except.error "No output columns supplied"
  else
    let res := s.data_frames.foldl
      (tablePass lin hav fuzz fStr s.match_mode s.exclusive s.radius width)
      (mergeInit s, List.replicate (totalHeight s) false, 0, 0)
    Except.ok (res.1, res.2.1)

/-- Column invariant for the LEFT-mode row accounting: the output frame has
exactly W text columns, every column holds one cell per row of the first
input table, and the columns of the first table's slice hold that table's
output values row by row. -/
def ColInv (df0 : DataFrame F) (W : Nat) (out : DataFrame F) : Prop :=
  out.data.length = W ∧
  (∀ c, c < W → (out.data.getD c []).length = df0.shape.2) ∧
  (∀ r, r < df0.shape.2 → ∀ c, c < df0.output_cols.length →
    (out.data.getD c []).getD r "" = (output_row df0 r).getD c "")

/-- The rows written to matches.csv, src/state.rs lines 406-410: all rows
except that under INNER only rows whose match flag is set survive. -/
def writtenRows (mode : MatchMode) (out : DataFrame F) (mmask : List Bool) :
    List (List String) :=
  (List.range (numRows out)).filterMap (fun row =>
    if mode ≠ MatchMode.INNER ∨ mmask.getD row false
    then some (output_row out row) else none)

/-- Computable model of Rust str::trim: strip whitespace from both ends
(Lean's built-in String.trim is not kernel-reducible, so the embedding
carries its own equivalent definition). -/
def trimStr (s : String) : String :=
  String.mk (((s.data.dropWhile Char.isWhitespace).reverse.dropWhile
    Char.isWhitespace).reverse)

/-- Computable model of Rust str::to_lowercase (ASCII case folding). -/
def lowerStr (s : String) : String := String.mk (s.data.map Char.toLower)

/-- Computable model of str::replace with a single-space pattern and empty
replacement: drop every space character. -/
def stripSpaces (s : String) : String :=
  String.mk (s.data.filter (fun c => !(c == ' ')))

/-- Cell of the column bound by a role binding (the source indexes
self.data[binding.unwrap()][row]; out-of-range reads are modelled by the
empty string default). -/
def roleCell (df : DataFrame F) (binding : Option Nat) (row : Nat) : String :=
  (df.data.getD (binding.getD 0) []).getD row ""

/-- DataFrame::get_address from src/data_frame.rs lines 517-538: none when
any required field is blank after trimming, otherwise the parts joined by
single spaces, with the zipcode appended and addr2 inserted at position 1. -/
def get_address (df : DataFrame F) (row : Nat) : Option String :=
  let a1 := roleCell df df.addr1 row
  let ci := roleCell df df.city row
  let st := roleCell df df.state row
  let parts := [a1, ci, st]
  if parts.any (fun e => (trimStr e).isEmpty) then none
  else
    let parts := match df.zipcode with
      | some z => parts ++ [roleCell df (some z) row]
      | none => parts
    let parts := match df.addr2 with
      | some a2 => parts.insertIdx 1 (roleCell df (some a2) row)
      | none => parts
    some (String.intercalate " " parts)

/-- The body of one fetch task, src/data_frame.rs lines 445-454: a row with
no address resolves to (NaN, NaN, empty) without touching the network; the
external geocoder is the parameter net.  The boolean records whether a
network request was issued. -/
def fetch_task (net : String → Option F × Option F × String)
    (addr : Option String) : (Option F × Option F × String) × Bool :=
  match addr with
  | none => ((none, none, ""), false)
  | some a => (net a, true)

/-- DataFrame::fetch from src/data_frame.rs lines 409-474 up to the output
file write: resolves every row, installs the coordinate columns and the
norm_address column.  The second component counts issued network requests. -/
def fetch (net : String → Option F × Option F × String) (df : DataFrame F) :
    DataFrame F × Nat :=
  let results := (List.range df.shape.2).map
    (fun row => fetch_task net (get_address df row))
  ({ df with
      lat := some (results.map (fun r => r.1.1)),
      lng := some (results.map (fun r => r.1.2.1)),
      headers := df.headers ++ ["norm_address"],
      data := df.data ++ [results.map (fun r => r.1.2.2)] },
    (results.filter (fun r => r.2)).length)

/-- DataFrame::get_col_index from src/data_frame.rs lines 251-261. -/
def get_col_index (df : DataFrame F) (col : String) : Except String Nat :=
  match df.headers.enum.find? (fun e => e.2 == col) with
  | some p => Except.ok p.1
  | none => Except.error ("No column named " ++ col)

/-- DataFrame::set_lat from src/data_frame.rs lines 389-397.  The external
f64 parser is the parameter parseF (none models a parse error).  The outer
none models the panic of the parse unwrap, which fires after the column has
been removed from the text data; some (Except.error e) is the recoverable
configuration error for an unknown column name. -/
def set_lat (parseF : String → Option F) (df : DataFrame F) (col : String) :
    Option (Except String (DataFrame F)) :=
  match get_col_index df col with
  | Except.error e => some (Except.error e)
  | Except.ok index =>
    let column := df.data.getD index []
    let rest := df.data.eraseIdx index
    match column.mapM parseF with
    | none => none
    | some vals => some (Except.ok { df with
        data := rest,
        lat := some (vals.map some),
        headers := df.headers.eraseIdx index })

/-- DataFrame::set_lng from src/data_frame.rs lines 399-407, the mirror
image of set_lat. -/
def set_lng (parseF : String → Option F) (df : DataFrame F) (col : String) :
    Option (Except String (DataFrame F)) :=
  match get_col_index df col with
  | Except.error e => some (Except.error e)
  | Except.ok index =>
    let column := df.data.getD index []
    let rest := df.data.eraseIdx index
    match column.mapM parseF with
    | none => none
    | some vals => some (Except.ok { df with
        data := rest,
        lng := some (vals.map some),
        headers := df.headers.eraseIdx index })

/-- Header normalisation of src/data_frame.rs lines 131-133: lowercase,
trim, strip inner spaces. -/
def normalizeHeader (h : String) : String :=
  stripSpaces (trimStr (lowerStr h))

/-- The eight role bindings inferred from the header row. -/
structure Roles where
  id : Option Nat := none
  addr1 : Option Nat := none
  addr2 : Option Nat := none
  city : Option Nat := none
  state : Option Nat := none
  zipcode : Option Nat := none
  lat : Option Nat := none
  lng : Option Nat := none

/-- One step of the role inference loop, src/data_frame.rs lines 130-161
(later headers overwrite earlier winners, as in the source). -/
def roleStep (r : Roles) (p : Nat × String) : Roles :=
  let m := normalizeHeader p.2
  if m = "id" then { r with id := some p.1 }
  else if m = "addr1" ∨ m = "address" ∨ m = "addr" then { r with addr1 := some p.1 }
  else if m = "addr2" ∨ m = "address2" then { r with addr2 := some p.1 }
  else if m = "city" then { r with city := some p.1 }
  else if m = "state" then { r with state := some p.1 }
  else if m = "zipcode" ∨ m = "zip" ∨ m = "postalcode" then { r with zipcode := some p.1 }
  else if m = "lat" ∨ m = "latitude" then { r with lat := some p.1 }
  else if m = "lng" ∨ m = "longitude" then { r with lng := some p.1 }
  else r

/-- The role inference loop over the enumerated headers. -/
def assignRoles (headers : List String) : Roles :=
  headers.enum.foldl roleStep {}

/-- Removal of the lat and lng columns from the header list, src/data_frame.rs
lines 165-180. -/
def removeLatLng (headers : List String) (lat lng : Option Nat) : List String :=
  match lat, lng with
  | some la, some ln =>
    if ln < la then (headers.eraseIdx ln).eraseIdx (la - 1)
    else (headers.eraseIdx la).eraseIdx (ln - 1)
  | some i, none => headers.eraseIdx i
  | none, some i => headers.eraseIdx i
  | none, none => headers

/-- Distribution of one CSV record into the columns, src/data_frame.rs lines
219-233: coordinate cells are parsed (unparseable ones map to the NaN
sentinel none via unwrap_or), the remaining cells go to column col - offset. -/
def recordStep (latIdx lngIdx : Option Nat) (parseF : String → Option F)
    (acc : List (List String) × List (Option F) × List (Option F))
    (record : List String) :
    List (List String) × List (Option F) × List (Option F) :=
  (record.enum.foldl
    (fun (st : (List (List String) × List (Option F) × List (Option F)) × Nat) p =>
      if latIdx = some p.1 then
        ((st.1.1, st.1.2.1 ++ [parseF p.2], st.1.2.2), st.2 + 1)
      else if lngIdx = some p.1 then
        ((st.1.1, st.1.2.1, st.1.2.2 ++ [parseF p.2]), st.2 + 1)
      else
        ((st.1.1.set (p.1 - st.2)
            ((st.1.1.getD (p.1 - st.2) []) ++ [p.2]), st.1.2.1, st.1.2.2), st.2))
    (acc, 0)).1

/-- DataFrame::from_path from src/data_frame.rs lines 79-236, abstracted
over the already-parsed CSV content (header row and records) and the f64
parser.  The shape keeps the original header count as width, as in the
source. -/
def from_path (parseF : String → Option F) (headers0 : List String)
    (records : List (List String)) : DataFrame F :=
  let width := headers0.length
  let height := records.length
  let r := assignRoles headers0
  let headers := removeLatLng headers0 r.lat r.lng
  let init : List (List String) × List (Option F) × List (Option F) :=
    (List.replicate headers.length [], [], [])
  let res := records.foldl (recordStep r.lat r.lng parseF) init
  { headers := headers,
    shape := (width, height),
    data := res.1,
    id := r.id, addr1 := r.addr1, addr2 := r.addr2,
    city := r.city, state := r.state, zipcode := r.zipcode,
    lat := if r.lat.isSome then some res.2.1 else none,
    lng := if r.lng.isSome then some res.2.2 else none }

/-- The invariant claimed for role bindings: every bound role is a valid
index into the text-column storage and the header there is recognised as
that same role. -/
def rolesValid (df : DataFrame F) : Prop :=
  (∀ i, df.id = some i → i < df.data.length ∧ normalizeHeader (df.headers.getD i "") = "id") ∧
  (∀ i, df.addr1 = some i → i < df.data.length ∧
    (normalizeHeader (df.headers.getD i "") = "addr1" ∨
     normalizeHeader (df.headers.getD i "") = "address" ∨
     normalizeHeader (df.headers.getD i "") = "addr")) ∧
  (∀ i, df.city = some i → i < df.data.length ∧ normalizeHeader (df.headers.getD i "") = "city") ∧
  (∀ i, df.state = some i → i < df.data.length ∧ normalizeHeader (df.headers.getD i "") = "state")

end Geomatch

namespace Geomatch

/-- Degrees to radians, modelling f64::to_radians. -/
noncomputable def toRad (x : ℝ) : ℝ := x * (Real.pi / 180)

/-- Four-quadrant arctangent, modelling f64::atan2 (y, x). -/
noncomputable def atan2 (y x : ℝ) : ℝ :=
  if 0 < x then Real.arctan (y / x)
  else if x < 0 ∧ 0 ≤ y then Real.arctan (y / x) + Real.pi
  else if x < 0 ∧ y < 0 then Real.arctan (y / x) - Real.pi
  else if x = 0 ∧ 0 < y then Real.pi / 2
  else if x = 0 ∧ y < 0 then -(Real.pi / 2)
  else 0

/-- Function haversine from src/state.rs lines 508-515, over the reals, with
the Earth radius R = 3958.8 miles of line 7. -/
noncomputable def haversineR (lat1 lng1 lat2 lng2 : ℝ) : ℝ :=
  let delta_lat := toRad (lat2 - lat1)
  let delta_lng := toRad (lng2 - lng1)
  let a := Real.sin (delta_lat * 0.5) ^ 2 +
    Real.cos (toRad lat1) * Real.cos (toRad lat2) * Real.sin (delta_lng * 0.5) ^ 2
  let c := 2 * atan2 (Real.sqrt a) (Real.sqrt (1 - a))
  3958.8 * c

/-- A concrete one-row source frame used by concrete instances. -/
def srcTie : DataFrame ℚ :=
  { lat := some [some 1], lng := some [some 2],
    data := [["bbb"]], compare_cols := [0] }

/-- A concrete two-row candidate frame with duplicated coordinates. -/
def candTie : DataFrame ℚ :=
  { lat := some [some 1, some 1], lng := some [some 2, some 2],
    shape := (0, 2), data := [["aaa", "bbb"]], compare_cols := [0] }

/-- Equality-indicator similarity standing in for token_sort_ratio. -/
def fuzzEq : String → String → Nat := fun a b => if a = b then 100 else 0

/-- Squared planar distance over the rationals, a computable stand-in for
the distance parameters in concrete instances. -/
def linSq : ℚ → ℚ → ℚ → ℚ → ℚ := fun a b c d => (c - a) ^ 2 + (d - b) ^ 2

/-- A concrete one-row source frame at the origin. -/
def srcC4 : DataFrame ℚ := { lat := some [some 0], lng := some [some 0] }

/-- A concrete one-row candidate frame at squared planar distance 25 from
the origin. -/
def candC4 : DataFrame ℚ :=
  { lat := some [some 3], lng := some [some 4], shape := (0, 1) }

/-- A concrete one-row frame whose required address fields are all blank
after trimming. -/
def dfBlank : DataFrame ℚ :=
  { addr1 := some 0, city := some 1, state := some 2,
    data := [["  "], [""], [" "]], shape := (3, 1) }

/-- A concrete geocoder that always resolves, used to show that blank rows
never reach the network. -/
def netC8 : String → Option ℚ × Option ℚ × String :=
  fun _ => (some 7, some 8, "x")

/-- A concrete empty frame that is ready to match but has no output
columns. -/
def dfNoCols : DataFrame ℚ := { lat := some [], lng := some [] }

/-- A concrete LEFT-mode state with no output columns configured. -/
def sLeftNoCols : State ℚ :=
  { data_frames := [dfNoCols], match_mode := MatchMode.LEFT,
    radius := 0, exclusive := true }

/-- A concrete INNER-mode state with no output columns configured. -/
def sInnerNoCols : State ℚ :=
  { data_frames := [dfNoCols], match_mode := MatchMode.INNER,
    radius := 0, exclusive := true }

/-- A concrete first table with one row and one output column. -/
def dfmA : DataFrame ℚ :=
  { headers := ["n"], data := [["alpha"]], shape := (1, 1),
    lat := some [some 1], lng := some [some 2], output_cols := [0] }

/-- A concrete second table matching dfmA exactly. -/
def dfmB : DataFrame ℚ :=
  { headers := ["n"], data := [["beta"]], shape := (1, 1),
    lat := some [some 1], lng := some [some 2], output_cols := [0] }

/-- A concrete LEFT-mode two-table merge state. -/
def sMergeLeft : State ℚ :=
  { data_frames := [dfmA, dfmB], match_mode := MatchMode.LEFT,
    radius := 1 / 4, exclusive := true }

/-- A concrete parser that fails only on the cell "bad". -/
def parseQ : String → Option ℚ := fun s => if s = "bad" then none else some 0

/-- A concrete two-column frame whose first column holds a non-numeric
cell. -/
def dfC10 : DataFrame ℚ :=
  { headers := ["a", "b"], data := [["1", "bad"], ["2", "3"]],
    shape := (2, 2) }

end Geomatch

namespace Geomatch

set_option linter.unusedSectionVars false

variable {F : Type} [LinearOrderedField F] [DecidableEq F]

theorem scanStep_fst (exclusive : Bool) (lin : F → F → F → F → F)
    (la ln : F) (df2 : DataFrame F) (wmask : List Bool)
    (acc : List Nat × Option (Nat × F × F × F)) (ti : Nat) :
    (scanStep exclusive lin la ln df2 wmask acc ti).1 =
      if exactPred exclusive wmask df2 la ln ti then acc.1 ++ [ti] else acc.1 := by
  unfold scanStep exactPred
  cases hm : exclusive && wmask.getD ti false with
  | true => simp only [hm]; simp
  | false =>
    simp only [hm]
    cases hla : latAt df2 ti with
    | none => simp
    | some tla =>
      cases hln : lngAt df2 ti with
      | none => simp
      | some tln =>
        by_cases he : la = tla ∧ ln = tln
        · simp [he]
        · simp only [if_neg he]
          have he' : ¬((decide (la = tla) && decide (ln = tln)) = true) := by
            simpa [decide_eq_true_eq] using he
          simp only [Bool.false_eq_true, if_false, he', ite_false]
          by_cases hne : acc.1 = []
          · simp only [hne, ne_eq, not_true_eq_false, if_false, ite_false]
            cases hacc : acc.2 with
            | none => simp [hne]; tauto
            | some m =>
              by_cases hd : lin la ln tla tln < m.2.2.2
              · simp [hd, hne]; tauto
              · simp [hd, hne]; tauto
          · simp only [hne, ne_eq, not_false_eq_true, if_true, ite_true]
            rw [if_neg]
            simpa [decide_eq_true_eq] using he

theorem scan_fst (exclusive : Bool) (lin : F → F → F → F → F)
    (la ln : F) (df2 : DataFrame F) (wmask : List Bool) :
    ∀ (l : List Nat) (acc : List Nat × Option (Nat × F × F × F)),
      (l.foldl (scanStep exclusive lin la ln df2 wmask) acc).1 =
        acc.1 ++ l.filter (exactPred exclusive wmask df2 la ln) := by
  intro l
  induction l with
  | nil => intro acc; simp
  | cons x xs ih =>
    intro acc
    rw [List.foldl_cons, ih, List.filter_cons]
    rw [scanStep_fst]
    by_cases hx : exactPred exclusive wmask df2 la ln x
    · simp [hx]
    · simp [hx]

theorem scanCandidates_fst (exclusive : Bool) (lin : F → F → F → F → F)
    (la ln : F) (df2 : DataFrame F) (wmask : List Bool) :
    (scanCandidates exclusive lin la ln df2 wmask).1 =
      (List.range df2.shape.2).filter (exactPred exclusive wmask df2 la ln) := by
  unfold scanCandidates
  rw [scan_fst]
  simp

/-- C3: for a source row with resolved coordinates, when exactly one
eligible candidate row (not excluded by the written mask under exclusivity,
coordinates resolved) has coordinates equal to the source's,
find_single_match returns exactly that candidate with distance 0, for every
value of the configured radius and of the distance functions. -/
theorem C3_single_exact_match (lin hav : F → F → F → F → F)
    (fuzz : String → String → Nat) (exclusive : Bool) (radius : F)
    (record_index : Nat) (df1 df2 : DataFrame F) (written_mask : List Bool)
    (la ln : F) (hla : latAt df1 record_index = some la)
    (hln : lngAt df1 record_index = some ln) (j : Nat)
    (hex : (List.range df2.shape.2).filter
      (exactPred exclusive written_mask df2 la ln) = [j]) :
    find_single_match lin hav fuzz exclusive radius record_index df1 df2
      written_mask = some (j, 0) := by
  have h1 : (scanCandidates exclusive lin la ln df2 written_mask).1 = [j] := by
    rw [scanCandidates_fst]; exact hex
  simp only [find_single_match, hla, hln, h1]

/-- Witness for C3 at a concrete table pair over the rationals. -/
theorem C3_single_exact_match_witness :
    find_single_match (fun _ _ _ _ => (0 : ℚ)) (fun _ _ _ _ => (0 : ℚ))
      (fun _ _ => 0) true 0 0
      { lat := some [some 1], lng := some [some 2] }
      { lat := some [some 5, some 1], lng := some [some 2, some 2],
        shape := (0, 2) }
      [false, false] = some (1, 0) :=
  C3_single_exact_match (fun _ _ _ _ => (0 : ℚ)) (fun _ _ _ _ => (0 : ℚ))
    (fun _ _ => 0) true 0 0
    { lat := some [some 1], lng := some [some 2] }
    { lat := some [some 5, some 1], lng := some [some 2, some 2],
      shape := (0, 2) }
    [false, false] 1 2 (by decide) (by decide) 1 (by decide)

theorem tieFold_aux (fuzz : String → String → Nat) (src : List String)
    (df2 : DataFrame F) :
    ∀ (l : List Nat) (b0 : Nat),
      ∃ b, l.foldl (tieStep fuzz src df2)
          (some (b0, tieScore fuzz src (compare_row df2 b0))) =
          some (b, tieScore fuzz src (compare_row df2 b)) ∧
        (b = b0 ∨ b ∈ l) ∧
        tieScore fuzz src (compare_row df2 b) ≤
          tieScore fuzz src (compare_row df2 b0) ∧
        ∀ j ∈ l, tieScore fuzz src (compare_row df2 b) ≤
          tieScore fuzz src (compare_row df2 j) := by
  intro l
  induction l with
  | nil => exact fun b0 => ⟨b0, rfl, Or.inl rfl, le_refl _, by simp⟩
  | cons x xs ih =>
    intro b0
    rw [List.foldl_cons]
    by_cases h : tieScore fuzz src (compare_row df2 b0) >
        tieScore fuzz src (compare_row df2 x)
    · have hstep : tieStep fuzz src df2
          (some (b0, tieScore fuzz src (compare_row df2 b0))) x =
          some (x, tieScore fuzz src (compare_row df2 x)) := by
        unfold tieStep; simp [h]
      rw [hstep]
      obtain ⟨b, h1, h2, h3, h4⟩ := ih x
      refine ⟨b, h1, Or.inr ?_, le_of_lt (lt_of_le_of_lt h3 h), ?_⟩
      · rcases h2 with h2 | h2
        · exact h2 ▸ List.mem_cons_self x xs
        · exact List.mem_cons_of_mem x h2
      · intro j hj
        rcases List.mem_cons.mp hj with hj | hj
        · exact hj ▸ h3
        · exact h4 j hj
    · have hstep : tieStep fuzz src df2
          (some (b0, tieScore fuzz src (compare_row df2 b0))) x =
          some (b0, tieScore fuzz src (compare_row df2 b0)) := by
        unfold tieStep; simp [h]
      rw [hstep]
      obtain ⟨b, h1, h2, h3, h4⟩ := ih b0
      refine ⟨b, h1, ?_, h3, ?_⟩
      · rcases h2 with h2 | h2
        · exact Or.inl h2
        · exact Or.inr (List.mem_cons_of_mem x h2)
      · intro j hj
        rcases List.mem_cons.mp hj with hj | hj
        · exact hj ▸ le_trans h3 (Nat.le_of_not_lt h)
        · exact h4 j hj

theorem tieFold_spec (fuzz : String → String → Nat) (src : List String)
    (df2 : DataFrame F) (x : Nat) (xs : List Nat) :
    ∃ b, tieFold fuzz src df2 (x :: xs) =
        some (b, tieScore fuzz src (compare_row df2 b)) ∧
      b ∈ x :: xs ∧
      ∀ j ∈ x :: xs, tieScore fuzz src (compare_row df2 b) ≤
        tieScore fuzz src (compare_row df2 j) := by
  have h0 : tieStep fuzz src df2 none x =
      some (x, tieScore fuzz src (compare_row df2 x)) := rfl
  obtain ⟨b, h1, h2, h3, h4⟩ := tieFold_aux fuzz src df2 xs x
  refine ⟨b, ?_, ?_, ?_⟩
  · unfold tieFold
    rw [List.foldl_cons, h0, h1]
  · rcases h2 with h2 | h2
    · exact h2 ▸ List.mem_cons_self x xs
    · exact List.mem_cons_of_mem x h2
  · intro j hj
    rcases List.mem_cons.mp hj with hj | hj
    · exact hj ▸ h3
    · exact h4 j hj

/-- C5: with more than one exact-coordinate eligible candidate,
find_single_match returns distance 0 and a candidate of the exact set whose
accumulated squared dissimilarity score (tieScore) is minimal over that
set; the selection is a pure function of the inputs, hence deterministic. -/
theorem C5_tie_break_min_score (lin hav : F → F → F → F → F)
    (fuzz : String → String → Nat) (exclusive : Bool) (radius : F)
    (record_index : Nat) (df1 df2 : DataFrame F) (written_mask : List Bool)
    (la ln : F) (hla : latAt df1 record_index = some la)
    (hln : lngAt df1 record_index = some ln) (e1 e2 : Nat) (rest : List Nat)
    (hex : (List.range df2.shape.2).filter
      (exactPred exclusive written_mask df2 la ln) = e1 :: e2 :: rest) :
    ∃ b, b ∈ e1 :: e2 :: rest ∧
      (∀ j ∈ e1 :: e2 :: rest,
        tieScore fuzz (compare_row df1 record_index) (compare_row df2 b) ≤
        tieScore fuzz (compare_row df1 record_index) (compare_row df2 j)) ∧
      find_single_match lin hav fuzz exclusive radius record_index df1 df2
        written_mask = some (b, 0) := by
  have h1 : (scanCandidates exclusive lin la ln df2 written_mask).1 =
      e1 :: e2 :: rest := by
    rw [scanCandidates_fst]; exact hex
  obtain ⟨b, hb1, hb2, hb3⟩ :=
    tieFold_spec fuzz (compare_row df1 record_index) df2 e1 (e2 :: rest)
  refine ⟨b, hb2, hb3, ?_⟩
  simp only [find_single_match, hla, hln, h1, hb1]

/-- Witness for C5: two exact candidates, the second with the smaller
fuzzy score, over the rationals. -/
theorem C5_tie_break_min_score_witness :
    ∃ b, b ∈ [0, 1] ∧
      (∀ j ∈ [0, 1],
        tieScore fuzzEq (compare_row srcTie 0) (compare_row candTie b) ≤
        tieScore fuzzEq (compare_row srcTie 0) (compare_row candTie j)) ∧
      find_single_match (fun _ _ _ _ => (0 : ℚ)) (fun _ _ _ _ => (0 : ℚ))
        fuzzEq true 0 0 srcTie candTie [false, false] = some (b, 0) := by
  have h := C5_tie_break_min_score (F := ℚ) (fun _ _ _ _ => (0 : ℚ))
    (fun _ _ _ _ => (0 : ℚ)) fuzzEq true 0 0 srcTie candTie
    [false, false] 1 2 (by decide) (by decide) 0 1 [] (by decide)
  simpa using h

theorem scan_min_step (exclusive : Bool) (lin : F → F → F → F → F)
    (la ln : F) (df2 : DataFrame F) (wmask : List Bool)
    (acc : List Nat × Option (Nat × F × F × F)) (ti : Nat)
    (processed : List Nat) (hacc : acc.1 = [])
    (hexact : exactPred exclusive wmask df2 la ln ti = false)
    (hmin : MinSpec exclusive lin la ln df2 wmask processed acc.2) :
    (scanStep exclusive lin la ln df2 wmask acc ti).1 = [] ∧
      MinSpec exclusive lin la ln df2 wmask (processed ++ [ti])
        (scanStep exclusive lin la ln df2 wmask acc ti).2 := by
  have hext : ∀ (mn : Option (Nat × F × F × F)),
      eligPred exclusive wmask df2 ti = false →
      MinSpec exclusive lin la ln df2 wmask processed mn →
      MinSpec exclusive lin la ln df2 wmask (processed ++ [ti]) mn := by
    intro mn helig hm
    cases mn with
    | none =>
      intro k hk
      rcases List.mem_append.mp hk with hk | hk
      · exact hm k hk
      · simp at hk; exact hk ▸ helig
    | some m =>
      obtain ⟨h1, h2, h3, h4, h5, h6⟩ := hm
      refine ⟨h1, List.mem_append_left _ h2, h3, h4, h5, ?_⟩
      intro k hk b c hke hkb hkc
      rcases List.mem_append.mp hk with hk | hk
      · exact h6 k hk b c hke hkb hkc
      · simp at hk
        rw [hk] at hke
        rw [hke] at helig
        cases helig
  have hfst : (scanStep exclusive lin la ln df2 wmask acc ti).1 = [] := by
    rw [scanStep_fst]
    simp [hexact, hacc]
  refine ⟨hfst, ?_⟩
  cases hmask : exclusive && wmask.getD ti false with
  | true =>
    have helig : eligPred exclusive wmask df2 ti = false := by
      unfold eligPred; rw [hmask]; rfl
    have hstep : (scanStep exclusive lin la ln df2 wmask acc ti).2 = acc.2 := by
      unfold scanStep; rw [hmask]; rfl
    rw [hstep]
    exact hext acc.2 helig hmin
  | false =>
    cases hla : latAt df2 ti with
    | none =>
      have helig : eligPred exclusive wmask df2 ti = false := by
        unfold eligPred; rw [hla]; simp
      have hstep : (scanStep exclusive lin la ln df2 wmask acc ti).2 = acc.2 := by
        unfold scanStep
        rw [hmask, hla]
        simp
      rw [hstep]
      exact hext acc.2 helig hmin
    | some tla =>
      cases hln : lngAt df2 ti with
      | none =>
        have helig : eligPred exclusive wmask df2 ti = false := by
          unfold eligPred; rw [hln]; simp
        have hstep : (scanStep exclusive lin la ln df2 wmask acc ti).2 = acc.2 := by
          unfold scanStep
          rw [hmask, hla, hln]
          simp
        rw [hstep]
        exact hext acc.2 helig hmin
      | some tln =>
        have helig : eligPred exclusive wmask df2 ti = true := by
          unfold eligPred; rw [hmask, hla, hln]; rfl
        have hne : ¬(la = tla ∧ ln = tln) := by
          intro he
          rw [exactPred, hmask] at hexact
          simp only [Bool.false_eq_true, if_false, ite_false, hla, hln] at hexact
          simp [he.1, he.2] at hexact
        cases hmn : acc.2 with
        | none =>
          rw [hmn] at hmin
          have hstep : (scanStep exclusive lin la ln df2 wmask acc ti).2 =
              some (ti, tla, tln, lin la ln tla tln) := by
            unfold scanStep
            rw [hmask, hla, hln]
            simp [if_neg hne, hacc, hmn]
          rw [hstep]
          refine ⟨helig, List.mem_append_right _ (by simp), hla, hln, rfl, ?_⟩
          intro k hk b c hke hkb hkc
          rcases List.mem_append.mp hk with hk | hk
          · rw [hmin k hk] at hke; cases hke
          · simp at hk
            rw [hk] at hkb hkc
            rw [hla] at hkb; rw [hln] at hkc
            cases hkb; cases hkc
            exact le_refl _
        | some m =>
          rw [hmn] at hmin
          obtain ⟨h1, h2, h3, h4, h5, h6⟩ := hmin
          by_cases hd : lin la ln tla tln < m.2.2.2
          · have hstep : (scanStep exclusive lin la ln df2 wmask acc ti).2 =
                some (ti, tla, tln, lin la ln tla tln) := by
              unfold scanStep
              rw [hmask, hla, hln]
              simp [if_neg hne, hacc, hmn, hd]
            rw [hstep]
            refine ⟨helig, List.mem_append_right _ (by simp), hla, hln, rfl, ?_⟩
            intro k hk b c hke hkb hkc
            rcases List.mem_append.mp hk with hk | hk
            · exact le_trans (le_of_lt hd) (h6 k hk b c hke hkb hkc)
            · simp at hk
              rw [hk] at hkb hkc
              rw [hla] at hkb; rw [hln] at hkc
              cases hkb; cases hkc
              exact le_refl _
          · have hstep : (scanStep exclusive lin la ln df2 wmask acc ti).2 =
                some m := by
              unfold scanStep
              rw [hmask, hla, hln]
              simp [if_neg hne, hacc, hmn, hd]
            rw [hstep]
            refine ⟨h1, List.mem_append_left _ h2, h3, h4, h5, ?_⟩
            intro k hk b c hke hkb hkc
            rcases List.mem_append.mp hk with hk | hk
            · exact h6 k hk b c hke hkb hkc
            · simp at hk
              rw [hk] at hkb hkc
              rw [hla] at hkb; rw [hln] at hkc
              cases hkb; cases hkc
              exact le_of_not_lt hd

theorem scan_min_fold (exclusive : Bool) (lin : F → F → F → F → F)
    (la ln : F) (df2 : DataFrame F) (wmask : List Bool) :
    ∀ (l : List Nat) (acc : List Nat × Option (Nat × F × F × F))
      (processed : List Nat), acc.1 = [] →
      (∀ ti ∈ l, exactPred exclusive wmask df2 la ln ti = false) →
      MinSpec exclusive lin la ln df2 wmask processed acc.2 →
      (l.foldl (scanStep exclusive lin la ln df2 wmask) acc).1 = [] ∧
        MinSpec exclusive lin la ln df2 wmask (processed ++ l)
          (l.foldl (scanStep exclusive lin la ln df2 wmask) acc).2 := by
  intro l
  induction l with
  | nil => intro acc processed h1 _ h3; simpa using ⟨h1, h3⟩
  | cons x xs ih =>
    intro acc processed h1 h2 h3
    obtain ⟨h4, h5⟩ := scan_min_step exclusive lin la ln df2 wmask acc x
      processed h1 (h2 x (List.mem_cons_self x xs)) h3
    have := ih (scanStep exclusive lin la ln df2 wmask acc x)
      (processed ++ [x]) h4 (fun ti hti => h2 ti (List.mem_cons_of_mem x hti)) h5
    simpa using this

/-- C4: with no exact-coordinate eligible candidate and at least one
eligible candidate, find_single_match selects a candidate minimizing the
planar proxy distance lin, computes the distance hav between the source
and that candidate, and returns none exactly when that distance strictly
exceeds the radius, otherwise the candidate carrying the hav distance
(never the proxy value); equality with the radius yields a match. -/
theorem C4_radius_gate (lin hav : F → F → F → F → F)
    (fuzz : String → String → Nat) (exclusive : Bool) (radius : F)
    (record_index : Nat) (df1 df2 : DataFrame F) (written_mask : List Bool)
    (la ln : F) (hla : latAt df1 record_index = some la)
    (hln : lngAt df1 record_index = some ln)
    (hnoexact : (List.range df2.shape.2).filter
      (exactPred exclusive written_mask df2 la ln) = [])
    (i : Nat) (hi : i < df2.shape.2)
    (helig : eligPred exclusive written_mask df2 i = true) :
    ∃ j tla tln, j < df2.shape.2 ∧
      eligPred exclusive written_mask df2 j = true ∧
      latAt df2 j = some tla ∧ lngAt df2 j = some tln ∧
      (∀ k b c, k < df2.shape.2 →
        eligPred exclusive written_mask df2 k = true →
        latAt df2 k = some b → lngAt df2 k = some c →
        lin la ln tla tln ≤ lin la ln b c) ∧
      find_single_match lin hav fuzz exclusive radius record_index df1 df2
        written_mask =
        (if hav la ln tla tln > radius then none
         else some (j, hav la ln tla tln)) := by
  have hfst : (scanCandidates exclusive lin la ln df2 written_mask).1 = [] := by
    rw [scanCandidates_fst]; exact hnoexact
  have hnof : ∀ ti ∈ List.range df2.shape.2,
      exactPred exclusive written_mask df2 la ln ti = false := by
    intro ti hti
    have := List.filter_eq_nil_iff.mp hnoexact ti hti
    exact Bool.eq_false_iff.mpr this
  have hspec := (scan_min_fold exclusive lin la ln df2 written_mask
    (List.range df2.shape.2) ([], none) [] rfl hnof (by intro k hk; cases hk)).2
  cases hmn : (scanCandidates exclusive lin la ln df2 written_mask).2 with
  | none =>
    exfalso
    have hmn' := hmn
    unfold scanCandidates at hmn'
    rw [hmn'] at hspec
    have := hspec i (by simpa using List.mem_range.mpr hi)
    rw [helig] at this
    cases this
  | some m =>
    obtain ⟨j, tla, tln, d⟩ := m
    have hmn' := hmn
    unfold scanCandidates at hmn'
    rw [hmn'] at hspec
    obtain ⟨h1, h2, h3, h4, h5, h6⟩ := hspec
    refine ⟨j, tla, tln, ?_, h1, h3, h4, ?_, ?_⟩
    · have : j ∈ List.range df2.shape.2 := by simpa using h2
      exact List.mem_range.mp this
    · intro k b c hk hke hkb hkc
      have := h6 k (by simpa using List.mem_range.mpr hk) b c hke hkb hkc
      simp only at h5
      rw [h5] at this
      exact this
    · simp only [find_single_match, hla, hln, hfst, hmn]

/-- Witness for C4: one non-exact candidate at proxy distance 25 from the
source, radius 25, so the inclusive gate admits the match. -/
theorem C4_radius_gate_witness :
    ∃ j tla tln, j < candC4.shape.2 ∧
      eligPred true [false] candC4 j = true ∧
      latAt candC4 j = some tla ∧ lngAt candC4 j = some tln ∧
      (∀ k b c, k < candC4.shape.2 →
        eligPred true [false] candC4 k = true →
        latAt candC4 k = some b → lngAt candC4 k = some c →
        linSq 0 0 tla tln ≤ linSq 0 0 b c) ∧
      find_single_match linSq linSq fuzzEq true 25 0 srcC4 candC4 [false] =
        (if linSq 0 0 tla tln > 25 then none
         else some (j, linSq 0 0 tla tln)) :=
  C4_radius_gate linSq linSq fuzzEq true 25 0 srcC4 candC4 [false] 0 0
    (by decide) (by decide) (by decide) 0 (by decide) (by decide)

/-- C9: the haversine distance is symmetric in its two points, and the
distance from any point to itself is zero. -/
theorem C9_haversine_symm_and_zero :
    (∀ lat1 lng1 lat2 lng2 : ℝ,
      haversineR lat1 lng1 lat2 lng2 = haversineR lat2 lng2 lat1 lng1) ∧
    (∀ la ln : ℝ, haversineR la ln la ln = 0) := by
  constructor
  · intro lat1 lng1 lat2 lng2
    simp only [haversineR, toRad]
    have h1 : (lat1 - lat2) * (Real.pi / 180) * 0.5 =
        -((lat2 - lat1) * (Real.pi / 180) * 0.5) := by ring
    have h2 : (lng1 - lng2) * (Real.pi / 180) * 0.5 =
        -((lng2 - lng1) * (Real.pi / 180) * 0.5) := by ring
    have ha : Real.sin ((lat1 - lat2) * (Real.pi / 180) * 0.5) ^ 2 +
        Real.cos (lat2 * (Real.pi / 180)) * Real.cos (lat1 * (Real.pi / 180)) *
          Real.sin ((lng1 - lng2) * (Real.pi / 180) * 0.5) ^ 2 =
        Real.sin ((lat2 - lat1) * (Real.pi / 180) * 0.5) ^ 2 +
        Real.cos (lat1 * (Real.pi / 180)) * Real.cos (lat2 * (Real.pi / 180)) *
          Real.sin ((lng2 - lng1) * (Real.pi / 180) * 0.5) ^ 2 := by
      rw [h1, h2, Real.sin_neg, Real.sin_neg]
      ring
    rw [ha]
  · intro la ln
    simp only [haversineR, toRad, sub_self, zero_mul, Real.sin_zero]
    have ha : (0 : ℝ) ^ 2 + Real.cos (la * (Real.pi / 180)) *
        Real.cos (la * (Real.pi / 180)) * (0 : ℝ) ^ 2 = 0 := by ring
    rw [ha, Real.sqrt_zero, sub_zero, Real.sqrt_one]
    have hz : atan2 0 1 = 0 := by
      unfold atan2
      rw [if_pos one_pos]
      simp [Real.arctan_zero]
    rw [hz]
    ring

/-- C8: a row whose required address fields (addr1, city, state) are blank
after trimming yields no address, and its fetch task resolves to NaN
coordinates with an empty normalized address without issuing a network
request; a table in which every row is blank fetches to NaN coordinates
on every row, an all-empty norm_address column, and zero network calls. -/
theorem C8_blank_rows_no_network (net : String → Option F × Option F × String)
    (df : DataFrame F) :
    (∀ row, trimStr (roleCell df df.addr1 row) = "" →
      trimStr (roleCell df df.city row) = "" →
      trimStr (roleCell df df.state row) = "" →
      get_address df row = none ∧
      fetch_task net (get_address df row) = ((none, none, ""), false)) ∧
    ((∀ row, row < df.shape.2 → trimStr (roleCell df df.addr1 row) = "" ∧
        trimStr (roleCell df df.city row) = "" ∧
        trimStr (roleCell df df.state row) = "") →
      (fetch net df).2 = 0 ∧
      (fetch net df).1.lat = some (List.replicate df.shape.2 none) ∧
      (fetch net df).1.lng = some (List.replicate df.shape.2 none) ∧
      (fetch net df).1.data.getLast? = some (List.replicate df.shape.2 "")) := by
  have hrow : ∀ row, trimStr (roleCell df df.addr1 row) = "" →
      trimStr (roleCell df df.city row) = "" →
      trimStr (roleCell df df.state row) = "" → get_address df row = none := by
    intro row h1 _ _
    have he : (trimStr (roleCell df df.addr1 row)).isEmpty = true := by rw [h1]; rfl
    unfold get_address
    simp [he]
  constructor
  · intro row h1 h2 h3
    refine ⟨hrow row h1 h2 h3, ?_⟩
    rw [hrow row h1 h2 h3]
    rfl
  · intro hall
    have haddr : ∀ row ∈ List.range df.shape.2, get_address df row = none := by
      intro row hmem
      have hlt := List.mem_range.mp hmem
      exact hrow row (hall row hlt).1 (hall row hlt).2.1 (hall row hlt).2.2
    have htask : ∀ row ∈ List.range df.shape.2,
        fetch_task net (get_address df row) = ((none, none, ""), false) := by
      intro row hmem
      rw [haddr row hmem]
      rfl
    have hres : (List.range df.shape.2).map
        (fun row => fetch_task net (get_address df row)) =
        List.replicate df.shape.2 ((none, none, ""), false) := by
      rw [List.eq_replicate_iff]
      constructor
      · simp
      · intro b hb
        obtain ⟨row, hmem, hrow2⟩ := List.mem_map.mp hb
        rw [← hrow2]
        exact htask row hmem
    unfold fetch
    rw [hres]
    refine ⟨?_, ?_, ?_, ?_⟩
    · simp
    · simp [List.map_replicate]
    · simp [List.map_replicate]
    · rw [List.getLast?_concat]
      simp [List.map_replicate]

/-- Witness for C8 at a concrete all-blank one-row table with an
always-resolving geocoder. -/
theorem C8_blank_rows_no_network_witness :
    (fetch netC8 dfBlank).2 = 0 ∧
    (fetch netC8 dfBlank).1.lat = some (List.replicate dfBlank.shape.2 none) ∧
    (fetch netC8 dfBlank).1.lng = some (List.replicate dfBlank.shape.2 none) ∧
    (fetch netC8 dfBlank).1.data.getLast? =
      some (List.replicate dfBlank.shape.2 "") :=
  (C8_blank_rows_no_network netC8 dfBlank).2 (by decide)

theorem mapM_none_of_mem (p : String → Option F) :
    ∀ (l : List String) (c : String), c ∈ l → p c = none →
      l.mapM p = none := by
  intro l
  induction l with
  | nil => intro c hc; cases hc
  | cons x xs ih =>
    intro c hc hpc
    rw [List.mapM_cons]
    rcases List.mem_cons.mp hc with hc | hc
    · have hx : p x = none := hc ▸ hpc
      rw [hx]
      rfl
    · cases hx : p x with
      | none => rfl
      | some v => rw [ih c hc hpc]; rfl

theorem mapM_some_of_all (p : String → Option F) :
    ∀ (l : List String), (∀ c ∈ l, (p c).isSome = true) →
      ∃ vals, l.mapM p = some vals := by
  intro l
  induction l with
  | nil => intro _; exact ⟨[], rfl⟩
  | cons x xs ih =>
    intro h
    obtain ⟨v, hv⟩ := Option.isSome_iff_exists.mp (h x (List.mem_cons_self x xs))
    obtain ⟨vs, hvs⟩ := ih (fun c hc => h c (List.mem_cons_of_mem x hc))
    refine ⟨v :: vs, ?_⟩
    rw [List.mapM_cons, hv, hvs]
    rfl

theorem all_of_mapM_some (p : String → Option F) :
    ∀ (l : List String) (vals : List F), l.mapM p = some vals →
      ∀ c ∈ l, (p c).isSome = true := by
  intro l
  induction l with
  | nil => intro vals _ c hc; cases hc
  | cons x xs ih =>
    intro vals h c hc
    rw [List.mapM_cons] at h
    cases hx : p x with
    | none => rw [hx] at h; exact absurd h (by intro hh; cases hh)
    | some v =>
      rw [hx] at h
      cases hxs : xs.mapM p with
      | none => rw [hxs] at h; exact absurd h (by intro hh; cases hh)
      | some vs =>
        rcases List.mem_cons.mp hc with hc | hc
        · rw [hc, hx]; rfl
        · exact ih vs hxs c hc

/-- C10: binding the lat or lng role via set_lat or set_lng succeeds
exactly when the column exists and every one of its cells parses; when a
cell fails to parse, either call panics (outer none) instead of returning
the configuration error, while from_path maps an unparseable coordinate
cell, on either axis, to the NaN sentinel. -/
theorem C10_set_latlng_panics_on_bad_cell (parseF : String → Option F) :
    (∀ (df : DataFrame F) col,
      (∃ df', set_lat parseF df col = some (Except.ok df')) ↔
      (∃ i, get_col_index df col = Except.ok i ∧
        ∀ c ∈ df.data.getD i [], (parseF c).isSome = true)) ∧
    (∀ (df : DataFrame F) col,
      (∃ df', set_lng parseF df col = some (Except.ok df')) ↔
      (∃ i, get_col_index df col = Except.ok i ∧
        ∀ c ∈ df.data.getD i [], (parseF c).isSome = true)) ∧
    (∀ (df : DataFrame F) col i, get_col_index df col = Except.ok i →
      (∃ c ∈ df.data.getD i [], parseF c = none) →
      set_lat parseF df col = none) ∧
    (∀ (df : DataFrame F) col i, get_col_index df col = Except.ok i →
      (∃ c ∈ df.data.getD i [], parseF c = none) →
      set_lng parseF df col = none) ∧
    (∀ v a b : String, parseF v = none →
      latAt (from_path parseF ["lat", "lng", "x"] [[v, a, b]]) 0 = none) ∧
    (∀ v a b : String, parseF v = none →
      lngAt (from_path parseF ["lat", "lng", "x"] [[a, v, b]]) 0 = none) := by
  refine ⟨?_, ?_, ?_, ?_, ?_, ?_⟩
  · intro df col
    constructor
    · rintro ⟨df', hdf⟩
      unfold set_lat at hdf
      cases hidx : get_col_index df col with
      | error e => rw [hidx] at hdf; cases hdf
      | ok i =>
        rw [hidx] at hdf
        dsimp only at hdf
        refine ⟨i, rfl, ?_⟩
        cases hmm : (df.data.getD i []).mapM parseF with
        | none => rw [hmm] at hdf; cases hdf
        | some vals => exact all_of_mapM_some parseF _ vals hmm
    · rintro ⟨i, hidx, hall⟩
      obtain ⟨vals, hvals⟩ := mapM_some_of_all parseF (df.data.getD i []) hall
      unfold set_lat
      rw [hidx]
      dsimp only
      rw [hvals]
      exact ⟨_, rfl⟩
  · intro df col
    constructor
    · rintro ⟨df', hdf⟩
      unfold set_lng at hdf
      cases hidx : get_col_index df col with
      | error e => rw [hidx] at hdf; cases hdf
      | ok i =>
        rw [hidx] at hdf
        dsimp only at hdf
        refine ⟨i, rfl, ?_⟩
        cases hmm : (df.data.getD i []).mapM parseF with
        | none => rw [hmm] at hdf; cases hdf
        | some vals => exact all_of_mapM_some parseF _ vals hmm
    · rintro ⟨i, hidx, hall⟩
      obtain ⟨vals, hvals⟩ := mapM_some_of_all parseF (df.data.getD i []) hall
      unfold set_lng
      rw [hidx]
      dsimp only
      rw [hvals]
      exact ⟨_, rfl⟩
  · intro df col i hidx hbad
    obtain ⟨c, hc, hpc⟩ := hbad
    have hnone : (df.data.getD i []).mapM parseF = none :=
      mapM_none_of_mem parseF _ c hc hpc
    unfold set_lat
    rw [hidx]
    dsimp only
    rw [hnone]
  · intro df col i hidx hbad
    obtain ⟨c, hc, hpc⟩ := hbad
    have hnone : (df.data.getD i []).mapM parseF = none :=
      mapM_none_of_mem parseF _ c hc hpc
    unfold set_lng
    rw [hidx]
    dsimp only
    rw [hnone]
  · intro v a b hpv
    show (([parseF v] : List (Option F))).getD 0 none = none
    simp [hpv]
  · intro v a b hpv
    show (([parseF v] : List (Option F))).getD 0 none = none
    simp [hpv]

/-- Witness for C10: the concrete frame dfC10 with the failing parser
parseQ panics on set_lat and on set_lng of column a, and from_path maps
the same bad cell to NaN on either coordinate axis. -/
theorem C10_set_latlng_panics_on_bad_cell_witness :
    set_lat parseQ dfC10 "a" = none ∧
    set_lng parseQ dfC10 "a" = none ∧
    latAt (from_path parseQ ["lat", "lng", "x"] [["bad", "1", "y"]]) 0 =
      none ∧
    lngAt (from_path parseQ ["lat", "lng", "x"] [["1", "bad", "y"]]) 0 =
      none :=
  ⟨(C10_set_latlng_panics_on_bad_cell parseQ).2.2.1 dfC10 "a" 0 rfl
      ⟨"bad", by decide, by decide⟩,
    (C10_set_latlng_panics_on_bad_cell parseQ).2.2.2.1 dfC10 "a" 0 rfl
      ⟨"bad", by decide, by decide⟩,
    (C10_set_latlng_panics_on_bad_cell parseQ).2.2.2.2.1 "bad" "1" "y"
      (by decide),
    (C10_set_latlng_panics_on_bad_cell parseQ).2.2.2.2.2 "bad" "1" "y"
      (by decide)⟩

/-- C2: the role-binding invariant is violated by the code.  On a file whose
lat and lng columns precede the role columns, from_path leaves the role
bindings at their pre-removal indices: here the state binding (index 4)
falls outside the three remaining text columns, and the addr1 binding
(index 2) points at the header named state. -/
theorem C2_role_bindings_stale_after_from_path :
    ¬ rolesValid (from_path (fun _ => (none : Option ℚ))
        ["lat", "lng", "addr1", "city", "state"]
        [["1.0", "2.0", "123 Main", "Springfield", "IL"]]) ∧
    (from_path (fun _ => (none : Option ℚ))
        ["lat", "lng", "addr1", "city", "state"]
        [["1.0", "2.0", "123 Main", "Springfield", "IL"]]).state = some 4 ∧
    (from_path (fun _ => (none : Option ℚ))
        ["lat", "lng", "addr1", "city", "state"]
        [["1.0", "2.0", "123 Main", "Springfield", "IL"]]).data.length = 3 ∧
    (from_path (fun _ => (none : Option ℚ))
        ["lat", "lng", "addr1", "city", "state"]
        [["1.0", "2.0", "123 Main", "Springfield", "IL"]]).headers =
      ["addr1", "city", "state"] := by
  refine ⟨?_, by decide, by decide, by decide⟩
  intro h
  have hst := (h.2.2.2 4 (by decide)).1
  have hlen : (from_path (fun _ => (none : Option ℚ))
      ["lat", "lng", "addr1", "city", "state"]
      [["1.0", "2.0", "123 Main", "Springfield", "IL"]]).data.length = 3 := by
    decide
  rw [hlen] at hst
  exact absurd hst (by decide)

theorem getD_set_self_true (l : List Bool) (i : Nat) (h : i < l.length) :
    (l.set i true).getD i false = true := by
  rw [List.getD_eq_getElem?_getD, List.getElem?_set_self]
  · rfl
  · simpa using h

theorem getD_set_ne_bool (l : List Bool) (i j : Nat) (h : i ≠ j) (d : Bool) :
    (l.set i true).getD j d = l.getD j d := by
  rw [List.getD_eq_getElem?_getD, List.getD_eq_getElem?_getD,
    List.getElem?_set_ne h]

theorem nodup_append_singleton {a : Nat} {l : List Nat} :
    (l ++ [a]).Nodup ↔ l.Nodup ∧ a ∉ l := by
  rw [List.nodup_append]
  simp [List.disjoint_left]

theorem exactPred_unmasked (wmask : List Bool) (df2 : DataFrame F)
    (la ln : F) (ti : Nat)
    (h : exactPred true wmask df2 la ln ti = true) :
    wmask.getD ti false = false := by
  unfold exactPred at h
  cases hg : wmask.getD ti false with
  | false => rfl
  | true => rw [hg] at h; simp at h

theorem eligPred_unmasked (wmask : List Bool) (df2 : DataFrame F) (ti : Nat)
    (h : eligPred true wmask df2 ti = true) :
    wmask.getD ti false = false := by
  unfold eligPred at h
  cases hg : wmask.getD ti false with
  | false => rfl
  | true => rw [hg] at h; simp at h

theorem fsm_unmasked (lin hav : F → F → F → F → F)
    (fuzz : String → String → Nat) (radius : F) (r : Nat)
    (df1 df2 : DataFrame F) (wmask : List Bool) (i : Nat) (d : F)
    (h : find_single_match lin hav fuzz true radius r df1 df2 wmask =
      some (i, d)) :
    i < df2.shape.2 ∧ wmask.getD i false = false := by
  unfold find_single_match at h
  cases hla : latAt df1 r with
  | none => rw [hla] at h; cases h
  | some la =>
    cases hln : lngAt df1 r with
    | none => rw [hla, hln] at h; cases h
    | some ln =>
      rw [hla, hln] at h
      dsimp only at h
      have hfst := scanCandidates_fst true lin la ln df2 wmask
      cases hs : (scanCandidates true lin la ln df2 wmask).1 with
      | nil =>
        rw [hs] at h hfst
        cases hmn : (scanCandidates true lin la ln df2 wmask).2 with
        | none => rw [hmn] at h; cases h
        | some m =>
          obtain ⟨mi, mla, mln, md⟩ := m
          rw [hmn] at h
          dsimp only at h
          have hnof : ∀ ti ∈ List.range df2.shape.2,
              exactPred true wmask df2 la ln ti = false := by
            intro ti hti
            exact Bool.eq_false_iff.mpr
              (List.filter_eq_nil_iff.mp hfst.symm ti hti)
          have hspec := (scan_min_fold true lin la ln df2 wmask
            (List.range df2.shape.2) ([], none) [] rfl hnof
            (by intro k hk; cases hk)).2
          have hmn' := hmn
          unfold scanCandidates at hmn'
          rw [hmn'] at hspec
          obtain ⟨h1, h2, _, _, _, _⟩ := hspec
          by_cases hgt : hav la ln mla mln > radius
          · rw [if_pos hgt] at h; cases h
          · rw [if_neg hgt] at h
            have hi : mi = i := by
              have := congrArg (fun o => Option.map Prod.fst o) h
              simpa using this
            rw [← hi]
            refine ⟨List.mem_range.mp (by simpa using h2), ?_⟩
            exact eligPred_unmasked wmask df2 mi h1
      | cons e tl =>
        cases tl with
        | nil =>
          rw [hs] at h hfst
          have hmem : e ∈ (List.range df2.shape.2).filter
              (exactPred true wmask df2 la ln) := by
            rw [← hfst]; exact List.mem_singleton_self e
          have hp := List.of_mem_filter hmem
          have hr := List.mem_range.mp (List.mem_of_mem_filter hmem)
          have hi : e = i := by
            have := congrArg (fun o => Option.map Prod.fst o) h
            simpa using this
          rw [← hi]
          exact ⟨hr, exactPred_unmasked wmask df2 la ln e hp⟩
        | cons e2 tl2 =>
          rw [hs] at h hfst
          dsimp only at h
          obtain ⟨b, hb1, hb2, _⟩ :=
            tieFold_spec fuzz (compare_row df1 r) df2 e (e2 :: tl2)
          rw [hb1] at h
          dsimp only at h
          have hi : b = i := by
            have := congrArg (fun o => Option.map Prod.fst o) h
            simpa using this
          have hmem : b ∈ (List.range df2.shape.2).filter
              (exactPred true wmask df2 la ln) := by
            rw [← hfst]; exact hb2
          have hp := List.of_mem_filter hmem
          have hr := List.mem_range.mp (List.mem_of_mem_filter hmem)
          rw [← hi]
          exact ⟨hr, exactPred_unmasked wmask df2 la ln b hp⟩

theorem foldl_preserve {α β : Type} (P : α → Prop) (f : α → β → α)
    (l : List β) (hf : ∀ a b, P a → P (f a b)) :
    ∀ a, P a → P (l.foldl f a) := by
  induction l with
  | nil => intro a ha; exact ha
  | cons x xs ih => intro a ha; exact ih _ (hf a x ha)

theorem matchOne_inv (lin hav : F → F → F → F → F)
    (fuzz : String → String → Nat) (fStr : F → String) (radius : F)
    (isLeft : Bool) (df : DataFrame F) (colIndex cols : Nat)
    (st : DataFrame F × List Bool × List Bool × List (Nat × Nat)) (row : Nat)
    (hlen : st.2.1.length = df.shape.2)
    (hmarked : ∀ pr ∈ st.2.2.2, st.2.1.getD pr.2 false = true)
    (hnd : (st.2.2.2.map Prod.snd).Nodup) :
    (matchOne lin hav fuzz fStr true radius isLeft df colIndex cols
        st row).2.1.length = df.shape.2 ∧
    (∀ pr ∈ (matchOne lin hav fuzz fStr true radius isLeft df colIndex cols
        st row).2.2.2,
      (matchOne lin hav fuzz fStr true radius isLeft df colIndex cols
        st row).2.1.getD pr.2 false = true) ∧
    ((matchOne lin hav fuzz fStr true radius isLeft df colIndex cols
        st row).2.2.2.map Prod.snd).Nodup := by
  unfold matchOne
  cases hres : find_single_match lin hav fuzz true radius row st.1 df
      st.2.1 with
  | none => exact ⟨hlen, hmarked, hnd⟩
  | some p =>
    obtain ⟨index, dist⟩ := p
    dsimp only
    obtain ⟨hlt, hfree⟩ := fsm_unmasked lin hav fuzz radius row st.1 df
      st.2.1 index dist hres
    refine ⟨?_, ?_, ?_⟩
    · rw [List.length_set]; exact hlen
    · intro pr hpr
      rcases List.mem_append.mp hpr with hpr | hpr
      · have hne : index ≠ pr.2 := by
          intro hEq
          have hm := hmarked pr hpr
          rw [← hEq] at hm
          rw [hm] at hfree
          cases hfree
        rw [getD_set_ne_bool st.2.1 index pr.2 hne]
        exact hmarked pr hpr
      · simp only [List.mem_singleton] at hpr
        rw [hpr]
        exact getD_set_self_true st.2.1 index (by rw [hlen]; exact hlt)
    · rw [List.map_append]
      simp only [List.map_cons, List.map_nil]
      rw [nodup_append_singleton]
      refine ⟨hnd, ?_⟩
      intro hmem
      obtain ⟨pr, hpr, hpr2⟩ := List.mem_map.mp hmem
      have hm := hmarked pr hpr
      rw [hpr2] at hm
      rw [hm] at hfree
      cases hfree

/-- C6: during one table's matching pass under the exclusive policy, the
trace of candidate indices returned by find_single_match contains no
duplicate: each returned index is marked in the written mask right away,
and every later call of the pass skips marked candidates, so no candidate
row is matched to more than one output row. -/
theorem C6_exclusive_no_candidate_reuse (lin hav : F → F → F → F → F)
    (fuzz : String → String → Nat) (fStr : F → String) (radius : F)
    (isLeft : Bool) (df : DataFrame F) (colIndex cols : Nat)
    (out : DataFrame F) (mmask : List Bool) :
    ((matchPass lin hav fuzz fStr true radius isLeft df colIndex cols
      (out, List.replicate df.shape.2 false, mmask, [])).2.2.2.map
        Prod.snd).Nodup := by
  have hinv := foldl_preserve
    (fun st : DataFrame F × List Bool × List Bool × List (Nat × Nat) =>
      st.2.1.length = df.shape.2 ∧
      (∀ pr ∈ st.2.2.2, st.2.1.getD pr.2 false = true) ∧
      (st.2.2.2.map Prod.snd).Nodup)
    (matchOne lin hav fuzz fStr true radius isLeft df colIndex cols)
    (List.range (numRows out))
    (fun a b ha => matchOne_inv lin hav fuzz fStr radius isLeft df colIndex
      cols a b ha.1 ha.2.1 ha.2.2)
    (out, List.replicate df.shape.2 false, mmask, [])
    (by
      refine ⟨by simp, ?_, by simp⟩
      intro pr hpr
      cases hpr)
  exact hinv.2.2

/-- C1 counterexample: under LEFT mode with no output columns configured on
any input table, find_matches does not fail: the distance column added
before the zero-width check makes the width 1, so the merge proceeds. -/
theorem C1_left_no_output_columns_proceeds :
    ∃ r, find_matches (fun _ _ _ _ => (0 : ℚ)) (fun _ _ _ _ => (0 : ℚ))
      fuzzEq (fun _ => "") sLeftNoCols = Except.ok r :=
  ⟨_, rfl⟩

/-- C1 (amended): find_matches fails with the configuration error exactly
when the total output width is zero, where the width counts the selected
output columns of every table plus the distance column under LEFT; hence
under INNER and OUTER the merge fails when no output columns are
configured anywhere, while under LEFT it always proceeds. -/
theorem C1_width_gate (lin hav : F → F → F → F → F)
    (fuzz : String → String → Nat) (fStr : F → String) (s : State F) :
    (find_matches lin hav fuzz fStr s =
        Except.error "No output columns supplied" ↔ totalWidth s = 0) ∧
    (s.match_mode ≠ MatchMode.LEFT →
      totalWidth s =
        s.data_frames.foldl (fun w df => w + (output_headers df).length) 0) ∧
    (s.match_mode = MatchMode.LEFT →
      ∃ r, find_matches lin hav fuzz fStr s = Except.ok r) := by
  refine ⟨⟨?_, ?_⟩, ?_, ?_⟩
  · intro h
    by_contra hw
    unfold find_matches at h
    rw [if_neg hw] at h
    cases h
  · intro hw
    unfold find_matches
    rw [if_pos hw]
  · intro hmode
    unfold totalWidth
    rw [if_neg hmode, Nat.add_zero]
  · intro hmode
    have hw : ¬(totalWidth s = 0) := by
      unfold totalWidth
      rw [if_pos hmode]
      omega
    unfold find_matches
    rw [if_neg hw]
    exact ⟨_, rfl⟩

theorem getD_set_list (d : List (List String)) (c c' : Nat)
    (v : List String) :
    (d.set c v).getD c' [] =
      if c = c' ∧ c < d.length then v else d.getD c' [] := by
  rw [List.getD_eq_getElem?_getD, List.getElem?_set]
  by_cases h : c = c'
  · subst h
    by_cases hl : c < d.length
    · simp [hl]
    · simp only [if_pos rfl, if_neg hl, and_true, hl, and_false, ite_false]
      rw [List.getD_eq_getElem?_getD, List.getElem?_eq_none (by omega)]
      rfl
  · simp only [if_neg h, h, false_and, ite_false]
    rw [List.getD_eq_getElem?_getD]

theorem setCell_data_length (d : List (List String)) (c r : Nat)
    (v : String) : (setCell d c r v).length = d.length := by
  unfold setCell
  exact List.length_set d c _

theorem setCell_getD_ne (d : List (List String)) (c c' r : Nat) (v : String)
    (h : c' ≠ c) : (setCell d c r v).getD c' [] = d.getD c' [] := by
  unfold setCell
  rw [getD_set_list, if_neg]
  intro hc
  exact h hc.1.symm

theorem setCell_col_length (d : List (List String)) (c c' r : Nat)
    (v : String) :
    ((setCell d c r v).getD c' []).length = (d.getD c' []).length := by
  unfold setCell
  rw [getD_set_list]
  by_cases h : c = c' ∧ c < d.length
  · rw [if_pos h, ← h.1, List.length_set]
  · rw [if_neg h]

theorem getD_replicate_list (n i : Nat) (a : List String) :
    (List.replicate n a).getD i [] = if i < n then a else [] := by
  rw [List.getD_eq_getElem?_getD, List.getElem?_replicate]
  by_cases h : i < n
  · simp [h]
  · simp [h]

theorem getD_replicate_bool (n i : Nat) :
    (List.replicate n false).getD i false = false := by
  rw [List.getD_eq_getElem?_getD, List.getElem?_replicate]
  by_cases h : i < n
  · simp [h]
  · simp [h]

theorem getD_map_range (f : Nat → String) (k r : Nat) (h : r < k) :
    ((List.range k).map f).getD r "" = f r := by
  rw [List.getD_eq_getElem?_getD, List.getElem?_map]
  simp [List.getElem?_range h]

theorem foldSetCell_spec (row : Nat) (ocols : List String) (colIndex : Nat) :
    ∀ (l : List Nat) (d : List (List String)),
      (l.foldl (fun d2 col => setCell d2 (colIndex + col) row
        (ocols.getD col "")) d).length = d.length ∧
      (∀ c', ((l.foldl (fun d2 col => setCell d2 (colIndex + col) row
        (ocols.getD col "")) d).getD c' []).length =
        ((d.getD c' []).length)) ∧
      (∀ c', c' < colIndex →
        (l.foldl (fun d2 col => setCell d2 (colIndex + col) row
          (ocols.getD col "")) d).getD c' [] = d.getD c' []) := by
  intro l
  induction l with
  | nil => intro d; exact ⟨rfl, fun _ => rfl, fun _ _ => rfl⟩
  | cons x xs ih =>
    intro d
    rw [List.foldl_cons]
    obtain ⟨ih1, ih2, ih3⟩ := ih (setCell d (colIndex + x) row (ocols.getD x ""))
    refine ⟨?_, ?_, ?_⟩
    · rw [ih1, setCell_data_length]
    · intro c'
      rw [ih2 c', setCell_col_length]
    · intro c' hc'
      rw [ih3 c' hc', setCell_getD_ne]
      omega

theorem matchOne_colinv (lin hav : F → F → F → F → F)
    (fuzz : String → String → Nat) (fStr : F → String) (exclusive : Bool)
    (radius : F) (isLeft : Bool) (df df0 : DataFrame F)
    (colIndex cols W : Nat)
    (st : DataFrame F × List Bool × List Bool × List (Nat × Nat)) (row : Nat)
    (hci : df0.output_cols.length ≤ colIndex)
    (hW : df0.output_cols.length < W) (hinv : ColInv df0 W st.1) :
    ColInv df0 W (matchOne lin hav fuzz fStr exclusive radius isLeft df
      colIndex cols st row).1 := by
  unfold matchOne
  cases hres : find_single_match lin hav fuzz exclusive radius row st.1 df
      st.2.1 with
  | none => exact hinv
  | some p =>
    obtain ⟨index, dist⟩ := p
    dsimp only
    obtain ⟨h1, h2, h3⟩ := hinv
    obtain ⟨f1, f2, f3⟩ := foldSetCell_spec row (output_row df index)
      colIndex (List.range cols) st.1.data
    have hd1len : ((List.range cols).foldl (fun d2 col => setCell d2
        (colIndex + col) row ((output_row df index).getD col ""))
        st.1.data).length = W := by rw [f1, h1]
    unfold ColInv
    cases isLeft with
    | false =>
      rw [if_neg (by simp)]
      refine ⟨by rw [f1, h1], ?_, ?_⟩
      · intro c hc
        rw [f2 c]
        exact h2 c hc
      · intro r hr c hc
        rw [f3 c (by omega)]
        exact h3 r hr c hc
    | true =>
      rw [if_pos rfl]
      refine ⟨?_, ?_, ?_⟩
      · rw [setCell_data_length, f1, h1]
      · intro c hc
        rw [setCell_col_length, f2 c]
        exact h2 c hc
      · intro r hr c hc
        rw [setCell_getD_ne _ _ _ _ _ (by rw [hd1len]; omega)]
        rw [f3 c (by omega)]
        exact h3 r hr c hc

theorem matchPass_colinv (lin hav : F → F → F → F → F)
    (fuzz : String → String → Nat) (fStr : F → String) (exclusive : Bool)
    (radius : F) (isLeft : Bool) (df df0 : DataFrame F)
    (colIndex cols W : Nat)
    (st : DataFrame F × List Bool × List Bool × List (Nat × Nat))
    (hci : df0.output_cols.length ≤ colIndex)
    (hW : df0.output_cols.length < W) (hinv : ColInv df0 W st.1) :
    ColInv df0 W (matchPass lin hav fuzz fStr exclusive radius isLeft df
      colIndex cols st).1 := by
  unfold matchPass
  exact foldl_preserve
    (fun st2 : DataFrame F × List Bool × List Bool × List (Nat × Nat) =>
      ColInv df0 W st2.1)
    (matchOne lin hav fuzz fStr exclusive radius isLeft df colIndex cols)
    (List.range (numRows st.1))
    (fun a b ha => matchOne_colinv lin hav fuzz fStr exclusive radius isLeft
      df df0 colIndex cols W a b hci hW ha)
    st hinv

theorem foldAppendShift (g : Nat → String) (s : Nat) :
    ∀ (m : Nat) (d : List (List String)), s + m ≤ d.length →
      ((List.range m).foldl (fun d2 col => d2.set (col + s)
        ((d2.getD (col + s) []) ++ [g col])) d).length = d.length ∧
      ∀ c, ((List.range m).foldl (fun d2 col => d2.set (col + s)
        ((d2.getD (col + s) []) ++ [g col])) d).getD c [] =
        (if s ≤ c ∧ c < s + m then (d.getD c []) ++ [g (c - s)]
         else d.getD c []) := by
  intro m
  induction m with
  | zero =>
    intro d _
    refine ⟨by rw [List.range_zero, List.foldl_nil], fun c => ?_⟩
    rw [List.range_zero, List.foldl_nil, if_neg (by omega)]
  | succ m ih =>
    intro d hle
    obtain ⟨ih1, ih2⟩ := ih d (by omega)
    rw [List.range_succ, List.foldl_append, List.foldl_cons, List.foldl_nil]
    have hm : m + s < ((List.range m).foldl (fun d2 col => d2.set (col + s)
        ((d2.getD (col + s) []) ++ [g col])) d).length := by
      rw [ih1]; omega
    constructor
    · rw [List.length_set, ih1]
    · intro c
      rw [getD_set_list]
      by_cases hc : m + s = c
      · rw [if_pos ⟨hc, hm⟩, ih2 (m + s), if_neg (by omega), ← hc,
          if_pos (by omega)]
        have : m + s - s = m := by omega
        rw [this]
      · rw [if_neg (by intro hx; exact hc hx.1), ih2 c]
        by_cases hcc : s ≤ c ∧ c < s + m
        · rw [if_pos hcc, if_pos (by omega)]
        · rw [if_neg hcc, if_neg (by omega)]

theorem foldAppendBlank (s : Nat) :
    ∀ (m : Nat) (d : List (List String)), s + m ≤ d.length →
      ((List.range' s m).foldl (fun d2 col => d2.set col
        ((d2.getD col []) ++ [""])) d).length = d.length ∧
      ∀ c, ((List.range' s m).foldl (fun d2 col => d2.set col
        ((d2.getD col []) ++ [""])) d).getD c [] =
        (if s ≤ c ∧ c < s + m then (d.getD c []) ++ [""]
         else d.getD c []) := by
  intro m
  induction m with
  | zero =>
    intro d _
    refine ⟨by rw [List.range'_zero, List.foldl_nil], fun c => ?_⟩
    rw [List.range'_zero, List.foldl_nil, if_neg (by omega)]
  | succ m ih =>
    intro d hle
    obtain ⟨ih1, ih2⟩ := ih d (by omega)
    rw [List.range'_concat, List.foldl_append, List.foldl_cons,
      List.foldl_nil, Nat.one_mul]
    have hm : s + m < ((List.range' s m).foldl (fun d2 col => d2.set col
        ((d2.getD col []) ++ [""])) d).length := by
      rw [ih1]; omega
    constructor
    · rw [List.length_set, ih1]
    · intro c
      rw [getD_set_list]
      by_cases hc : s + m = c
      · rw [if_pos ⟨hc, hm⟩, ih2 (s + m), if_neg (by omega), ← hc,
          if_pos (by omega)]
      · rw [if_neg (by intro hx; exact hc hx.1), ih2 c]
        by_cases hcc : s ≤ c ∧ c < s + m
        · rw [if_pos hcc, if_pos (by omega)]
        · rw [if_neg hcc, if_neg (by omega)]

theorem appendRow_zero_spec (df : DataFrame F) (cols W : Nat)
    (out : DataFrame F) (row : Nat) (hlen : out.data.length = W)
    (hcols : cols ≤ W) :
    (appendRow df 0 cols W out row).data.length = W ∧
    ∀ c, (appendRow df 0 cols W out row).data.getD c [] =
      (if c < cols then (out.data.getD c []) ++
        [(output_row df row).getD c ""]
       else if c < W then (out.data.getD c []) ++ [""]
       else out.data.getD c []) := by
  unfold appendRow
  dsimp only
  rw [List.range_zero, List.foldl_nil]
  obtain ⟨a1, a2⟩ := foldAppendShift
    (fun col => (output_row df row).getD col "") 0 cols out.data
    (by omega)
  obtain ⟨b1, b2⟩ := foldAppendBlank (0 + cols) (W - (0 + cols))
    ((List.range cols).foldl (fun d2 col => d2.set (col + 0)
      ((d2.getD (col + 0) []) ++ [(output_row df row).getD col ""]))
      out.data)
    (by rw [a1]; omega)
  constructor
  · rw [b1, a1]
    exact hlen
  · intro c
    rw [b2 c, a2 c]
    by_cases h1 : c < cols
    · rw [if_neg (by omega), if_pos (by omega), if_pos h1]
      have : c - 0 = c := by omega
      rw [this]
    · by_cases h2 : c < W
      · rw [if_pos (by omega), if_neg (by omega), if_neg h1, if_pos h2]
      · rw [if_neg (by omega), if_neg (by omega), if_neg h1, if_neg h2]

theorem matchPass_zero (lin hav : F → F → F → F → F)
    (fuzz : String → String → Nat) (fStr : F → String) (exclusive : Bool)
    (radius : F) (isLeft : Bool) (df : DataFrame F) (colIndex cols : Nat)
    (st : DataFrame F × List Bool × List Bool × List (Nat × Nat))
    (h : numRows st.1 = 0) :
    matchPass lin hav fuzz fStr exclusive radius isLeft df colIndex cols
      st = st := by
  unfold matchPass
  rw [h]
  rfl

theorem tablePass_first_spec (lin hav : F → F → F → F → F)
    (fuzz : String → String → Nat) (fStr : F → String) (exclusive : Bool)
    (radius : F) (W : Nat) (df0 out0 : DataFrame F) (mmask0 : List Bool)
    (h0 : numRows out0 = 0) :
    tablePass lin hav fuzz fStr MatchMode.LEFT exclusive radius W
      (out0, mmask0, 0, 0) df0 =
      (appendPass exclusive df0 0 (output_headers df0).length W
        (List.replicate df0.shape.2 false) out0,
       mmask0, 0 + (output_headers df0).length, 0 + 1) := by
  unfold tablePass
  dsimp only
  rw [matchPass_zero lin hav fuzz fStr exclusive radius
    (MatchMode.LEFT == MatchMode.LEFT) df0 0 (output_headers df0).length
    (out0, List.replicate df0.shape.2 false, mmask0, []) h0]
  rw [if_pos (Or.inr rfl)]

theorem tablePass_preserve_left (lin hav : F → F → F → F → F)
    (fuzz : String → String → Nat) (fStr : F → String) (exclusive : Bool)
    (radius : F) (df0 : DataFrame F) (W : Nat)
    (hW : df0.output_cols.length < W)
    (acc : DataFrame F × List Bool × Nat × Nat) (df : DataFrame F)
    (hR : ColInv df0 W acc.1 ∧ df0.output_cols.length ≤ acc.2.2.1 ∧
      acc.2.2.2 ≠ 0) :
    ColInv df0 W (tablePass lin hav fuzz fStr MatchMode.LEFT exclusive
      radius W acc df).1 ∧
    df0.output_cols.length ≤ (tablePass lin hav fuzz fStr MatchMode.LEFT
      exclusive radius W acc df).2.2.1 ∧
    (tablePass lin hav fuzz fStr MatchMode.LEFT exclusive radius W
      acc df).2.2.2 ≠ 0 := by
  obtain ⟨hc, hci, hdi⟩ := hR
  unfold tablePass
  dsimp only
  rw [if_neg (by simp [hdi])]
  refine ⟨?_, ?_, ?_⟩
  · exact matchPass_colinv lin hav fuzz fStr exclusive radius
      (MatchMode.LEFT == MatchMode.LEFT) df df0 acc.2.2.1
      (output_headers df).length W
      (acc.1, List.replicate df.shape.2 false, acc.2.1, []) hci hW hc
  · exact le_trans hci (Nat.le_add_right _ _)
  · exact Nat.succ_ne_zero _

theorem appendPass_zero_spec (exclusive : Bool) (df0 : DataFrame F)
    (cols W : Nat) (hcols : cols ≤ W) (out0 : DataFrame F)
    (h0len : out0.data.length = W)
    (h0col : ∀ c, c < W → out0.data.getD c [] = []) :
    ∀ k, k ≤ df0.shape.2 →
      ((List.range k).foldl (fun o row =>
        if !exclusive || !((List.replicate df0.shape.2 false).getD row false)
        then appendRow df0 0 cols W o row else o) out0).data.length = W ∧
      (∀ c, c < cols →
        ((List.range k).foldl (fun o row =>
          if !exclusive || !((List.replicate df0.shape.2 false).getD row
            false) then appendRow df0 0 cols W o row else o)
          out0).data.getD c [] =
          (List.range k).map (fun r => (output_row df0 r).getD c "")) ∧
      (∀ c, cols ≤ c → c < W →
        ((List.range k).foldl (fun o row =>
          if !exclusive || !((List.replicate df0.shape.2 false).getD row
            false) then appendRow df0 0 cols W o row else o)
          out0).data.getD c [] = List.replicate k "") := by
  intro k
  induction k with
  | zero =>
    intro _
    refine ⟨by rw [List.range_zero, List.foldl_nil]; exact h0len, ?_, ?_⟩
    · intro c hc
      rw [List.range_zero, List.foldl_nil, List.map_nil]
      exact h0col c (lt_of_lt_of_le hc hcols)
    · intro c _ hcW
      rw [List.range_zero, List.foldl_nil, List.replicate_zero]
      exact h0col c hcW
  | succ k ih =>
    intro hk
    obtain ⟨ih1, ih2, ih3⟩ := ih (by omega)
    rw [List.range_succ, List.foldl_append, List.foldl_cons, List.foldl_nil]
    have hcond : (!exclusive ||
        !((List.replicate df0.shape.2 false).getD k false)) = true := by
      rw [getD_replicate_bool]
      simp
    rw [if_pos hcond]
    obtain ⟨a1, a2⟩ := appendRow_zero_spec df0 cols W
      ((List.range k).foldl (fun o row =>
        if !exclusive || !((List.replicate df0.shape.2 false).getD row false)
        then appendRow df0 0 cols W o row else o) out0) k ih1 hcols
    refine ⟨a1, ?_, ?_⟩
    · intro c hc
      rw [a2 c, if_pos hc, ih2 c hc, List.map_append,
        List.map_cons, List.map_nil]
    · intro c hcc hcW
      rw [a2 c, if_neg (by omega), if_pos hcW, ih3 c hcc hcW,
        List.replicate_succ']

theorem writtenRows_left_length (out : DataFrame F) (m : List Bool) :
    (writtenRows MatchMode.LEFT out m).length = numRows out := by
  unfold writtenRows
  have hcond : ∀ row : Nat,
      (if MatchMode.LEFT ≠ MatchMode.INNER ∨ m.getD row false = true
       then some (output_row out row) else none) =
      some (output_row out row) := by
    intro row
    rw [if_pos (Or.inl (by intro hEq; cases hEq))]
  calc (List.filterMap (fun row =>
          if MatchMode.LEFT ≠ MatchMode.INNER ∨ m.getD row false = true
          then some (output_row out row) else none)
        (List.range (numRows out))).length
      = (List.filterMap (fun row => some (output_row out row))
          (List.range (numRows out))).length := by
        rw [funext hcond]
    _ = ((List.range (numRows out)).map (output_row out)).length :=
        congrArg List.length
          (List.filterMap_eq_map_iff_forall_eq_some.mpr (fun x _ => rfl))
    _ = numRows out := by rw [List.length_map, List.length_range]

theorem foldl_width_le :
    ∀ (l : List (DataFrame F)) (init : Nat),
      init ≤ l.foldl (fun w df => w + (output_headers df).length) init := by
  intro l
  induction l with
  | nil => intro init; exact le_refl _
  | cons x xs ih =>
    intro init
    rw [List.foldl_cons]
    exact le_trans (Nat.le_add_right _ _) (ih _)

theorem find_matches_ok (lin hav : F → F → F → F → F)
    (fuzz : String → String → Nat) (fStr : F → String) (s : State F)
    (hw : ¬ totalWidth s = 0) :
    find_matches lin hav fuzz fStr s = Except.ok
      ((s.data_frames.foldl (tablePass lin hav fuzz fStr s.match_mode
          s.exclusive s.radius (totalWidth s))
        (mergeInit s, List.replicate (totalHeight s) false, 0, 0)).1,
       (s.data_frames.foldl (tablePass lin hav fuzz fStr s.match_mode
          s.exclusive s.radius (totalWidth s))
        (mergeInit s, List.replicate (totalHeight s) false, 0, 0)).2.1) := by
  unfold find_matches
  rw [if_neg hw]

/-- C7: under LEFT mode every row of the first input table gives rise to
exactly one row of the final written output, whether or not it later
matched, and no row originating from a later table is ever appended: the
accumulated output has exactly the first table's row count, every
accumulated row is written, and the first table's column slice holds its
output values row by row. -/
theorem C7_left_first_table_rows (lin hav : F → F → F → F → F)
    (fuzz : String → String → Nat) (fStr : F → String) (s : State F)
    (df0 : DataFrame F) (rest : List (DataFrame F))
    (hdfs : s.data_frames = df0 :: rest)
    (hmode : s.match_mode = MatchMode.LEFT) :
    ∃ out mmask,
      find_matches lin hav fuzz fStr s = Except.ok (out, mmask) ∧
      numRows out = df0.shape.2 ∧
      (writtenRows MatchMode.LEFT out mmask).length = df0.shape.2 ∧
      (∀ r, r < df0.shape.2 → ∀ c, c < df0.output_cols.length →
        (out.data.getD c []).getD r "" = (output_row df0 r).getD c "") := by
  have hlen0 : (output_headers df0).length = df0.output_cols.length := by
    unfold output_headers
    rw [List.length_map]
  have hw : ¬ totalWidth s = 0 := by
    unfold totalWidth
    rw [if_pos hmode]
    omega
  have hfold := foldl_width_le rest (0 + (output_headers df0).length)
  have hWgt : df0.output_cols.length < totalWidth s := by
    unfold totalWidth
    rw [if_pos hmode, hdfs, List.foldl_cons]
    omega
  have h0 : numRows (mergeInit s : DataFrame F) = 0 := by
    unfold numRows mergeInit with_capacity
    dsimp only
    rw [getD_replicate_list]
    split
    · rfl
    · rfl
  have hfm := find_matches_ok lin hav fuzz fStr s hw
  rw [hdfs, hmode, List.foldl_cons] at hfm
  rw [tablePass_first_spec lin hav fuzz fStr s.exclusive s.radius
    (totalWidth s) df0 (mergeInit s) (List.replicate (totalHeight s) false)
    h0] at hfm
  have happ : appendPass s.exclusive df0 0 (output_headers df0).length
      (totalWidth s) (List.replicate df0.shape.2 false)
      (mergeInit s : DataFrame F) =
      (List.range df0.shape.2).foldl (fun o row =>
        if !s.exclusive ||
          !((List.replicate df0.shape.2 false).getD row false)
        then appendRow df0 0 (output_headers df0).length (totalWidth s) o row
        else o) (mergeInit s) := rfl
  obtain ⟨q1, q2, q3⟩ := appendPass_zero_spec s.exclusive df0
    (output_headers df0).length (totalWidth s) (by omega)
    (mergeInit s)
    (by
      show (List.replicate (totalWidth s) ([] : List String)).length = _
      rw [List.length_replicate])
    (by
      intro c _
      show (List.replicate (totalWidth s) ([] : List String)).getD c [] = []
      rw [getD_replicate_list]
      split
      · rfl
      · rfl)
    df0.shape.2 (le_refl _)
  have hcolinv : ColInv df0 (totalWidth s)
      (appendPass s.exclusive df0 0 (output_headers df0).length
        (totalWidth s) (List.replicate df0.shape.2 false) (mergeInit s)) := by
    rw [happ]
    refine ⟨q1, ?_, ?_⟩
    · intro c hc
      by_cases hcc : c < (output_headers df0).length
      · rw [q2 c hcc, List.length_map, List.length_range]
      · rw [q3 c (by omega) hc, List.length_replicate]
    · intro r hr c hc
      rw [q2 c (by omega), getD_map_range _ _ _ hr]
  have hfin := foldl_preserve
    (fun acc : DataFrame F × List Bool × Nat × Nat =>
      ColInv df0 (totalWidth s) acc.1 ∧
      df0.output_cols.length ≤ acc.2.2.1 ∧ acc.2.2.2 ≠ 0)
    (tablePass lin hav fuzz fStr MatchMode.LEFT s.exclusive s.radius
      (totalWidth s))
    rest
    (fun a b ha => tablePass_preserve_left lin hav fuzz fStr s.exclusive
      s.radius df0 (totalWidth s) hWgt a b ha)
    (appendPass s.exclusive df0 0 (output_headers df0).length (totalWidth s)
      (List.replicate df0.shape.2 false) (mergeInit s),
     List.replicate (totalHeight s) false, 0 + (output_headers df0).length,
     0 + 1)
    ⟨hcolinv, by dsimp only; omega, by dsimp only; omega⟩
  obtain ⟨⟨k1, k2, k3⟩, _, _⟩ := hfin
  refine ⟨_, _, hfm, ?_, ?_, k3⟩
  · unfold numRows
    exact k2 0 (by omega)
  · rw [writtenRows_left_length]
    unfold numRows
    exact k2 0 (by omega)

/-- Witness for C7: a concrete LEFT-mode merge of two one-row tables. -/
theorem C7_left_first_table_rows_witness :
    ∃ out mmask,
      find_matches linSq linSq fuzzEq (fun _ => "") sMergeLeft =
        Except.ok (out, mmask) ∧
      numRows out = dfmA.shape.2 ∧
      (writtenRows MatchMode.LEFT out mmask).length = dfmA.shape.2 ∧
      (∀ r, r < dfmA.shape.2 → ∀ c, c < dfmA.output_cols.length →
        (out.data.getD c []).getD r "" = (output_row dfmA r).getD c "") :=
  C7_left_first_table_rows linSq linSq fuzzEq (fun _ => "") sMergeLeft
    dfmA [dfmB] rfl rfl

/-- Witness for C1 (amended): a concrete INNER-mode state with no output
columns makes find_matches fail with the configuration error. -/
theorem C1_width_gate_witness :
    find_matches (fun _ _ _ _ => (0 : ℚ)) (fun _ _ _ _ => (0 : ℚ))
      fuzzEq (fun _ => "") sInnerNoCols =
      Except.error "No output columns supplied" :=
  (C1_width_gate (fun _ _ _ _ => (0 : ℚ)) (fun _ _ _ _ => (0 : ℚ))
    fuzzEq (fun _ => "") sInnerNoCols).1.mpr (by decide)

end Geomatch
